import Mathlib

set_option maxHeartbeats 1000000

/-!
Verification of the qpid-proton event reactor (src/proton-c/src/reactor/reactor.c).

The reactor's own logic (`pn_reactor_process`, `pn_reactor_update`,
`pn_reactor_selectable`, `pn_event_handler`, `pn_reactor_start` / `stop` /
`run` / `free` / `schedule` / `yield` / `mark`) is translated function by
function from the C source.  The external collaborators whose sources are not
part of this repository slice (collector.c, timer.c, selectable.c, the
iohandler) are modelled from their contracts in the specification; each such
definition carries a doc comment saying so.

Handlers are opaque subscribers (per the specification); in this model a
user handler invocation has no effect on the reactor state, and the global
iohandler's only modelled effect is the selectable release it performs on a
SELECTABLE_FINAL event.  `pn_i_now()` (the monotonic clock) is an input
parameter, and the unbounded `while (true)` loop of `pn_reactor_process`
is given explicit fuel: `none` means the fuel ran out.
-/

namespace QpidReactor

/-- Event types (the members of pn_event_type_t that reactor.c manipulates). -/
inductive EvType where
  | NONE
  | REACTOR_INIT
  | REACTOR_QUIESCED
  | REACTOR_FINAL
  | SELECTABLE_INIT
  | SELECTABLE_UPDATED
  | SELECTABLE_FINAL
  | CONNECTION_INIT
  | CONNECTION_FINAL
  | TIMER_TASK
deriving DecidableEq, Repr

/-- Context entity carried by an event put into the collector. -/
inductive Ctx where
  | reactorC
  | selC (sid : Nat)
  | connC (cid : Nat)
deriving DecidableEq, Repr

/-- An event: a type together with its context entity (pn_event_t as reactor.c uses it). -/
structure Ev where
  etype : EvType
  ctx : Ctx
deriving DecidableEq, Repr

/-- Modelled from the spec: the per-selectable state the reactor manipulates
through the selectable contract (selectable.c is not in src/): the terminal
bit, the PNI_TERMINATED attachment marker, the deadline, and the optional
PN_HANDLER attachment. -/
structure SelSt where
  sid : Nat
  terminal : Bool
  terminated : Bool
  deadline : Int
  handler : Option Nat
deriving DecidableEq, Repr

/-- The reactor state (struct pn_reactor_t plus the state of its owned
collaborators).  `collector`/`released` model the owned pn_collector_t;
`log` records every event successfully put into the collector, oldest
first (a history variable, used only to state properties); `timer` is the
list of scheduled task deadlines; `children` holds the registered
selectables; `boundConns` records connections that received the weak
PN_REACTOR attachment in the pre-dispatch hook; `rootHandler` is
reactor->handler (none once freed); `refDropped` records the pn_decref
performed by pn_reactor_free. -/
structure Reactor where
  collector : List Ev
  released : Bool
  log : List Ev
  previous : EvType
  now : Int
  selectables : Int
  timer : List Int
  selectable : Option Nat
  children : List SelSt
  boundConns : List Nat
  rootHandler : Option Nat
  yield : Bool
  timeout : Int
  nextId : Nat
  refDropped : Bool
deriving DecidableEq, Repr

/-- Modelled from the spec: collector contract, put appends (stable FIFO);
a released collector abandons events and ignores further puts. -/
def pn_collector_put (r : Reactor) (e : Ev) : Reactor :=
  if r.released then r
  else { r with collector := r.collector ++ [e], log := r.log ++ [e] }

/-- Modelled from the spec: collector contract, peek returns the head, null if
empty, repeatable until pop; a released collector has no pending events. -/
def pn_collector_peek (r : Reactor) : Option Ev :=
  if r.released then none else r.collector.head?

/-- Modelled from the spec: collector contract, pop removes the head. -/
def pn_collector_pop (r : Reactor) : Reactor :=
  { r with collector := r.collector.tail }

/-- Modelled from the spec: collector contract, release abandons all pending
events. -/
def pn_collector_release (r : Reactor) : Reactor :=
  { r with collector := [], released := true }

/-- Lookup of a registered selectable by id in the children list. -/
def childFind : List SelSt → Nat → Option SelSt
  | [], _ => none
  | c :: cs, sid => if c.sid = sid then some c else childFind cs sid

/-- Replace the state of the selectable with the given id. -/
def childSet : List SelSt → Nat → SelSt → List SelSt
  | [], _, _ => []
  | c :: cs, sid, c' => if c.sid = sid then c' :: cs else c :: childSet cs sid c'

/-- Remove the first child with the given id (pn_list_remove). -/
def childRemove : List SelSt → Nat → List SelSt
  | [], _ => []
  | c :: cs, sid => if c.sid = sid then cs else c :: childRemove cs sid

/-- pn_reactor_update (reactor.c lines 166-177): if the selectable's
attachments do not carry PNI_TERMINATED, then a terminal selectable gets the
marker and a SELECTABLE_FINAL is put, otherwise a SELECTABLE_UPDATED is put. -/
def pn_reactor_update (r : Reactor) (sid : Nat) : Reactor :=
  match childFind r.children sid with
  | none => r
  | some c =>
    if c.terminated then r
    else if c.terminal then
      pn_collector_put
        { r with children := childSet r.children sid { c with terminated := true } }
        ⟨EvType.SELECTABLE_FINAL, Ctx.selC sid⟩
    else
      pn_collector_put r ⟨EvType.SELECTABLE_UPDATED, Ctx.selC sid⟩

/-- Modelled from the spec: selectable contract, terminate sets the terminal
bit. -/
def pn_selectable_terminate (r : Reactor) (sid : Nat) : Reactor :=
  match childFind r.children sid with
  | none => r
  | some c => { r with children := childSet r.children sid { c with terminal := true } }

/-- Modelled from the spec: selectable contract, set_deadline. -/
def setChildDeadline (r : Reactor) (sid : Nat) (d : Int) : Reactor :=
  match childFind r.children sid with
  | none => r
  | some c => { r with children := childSet r.children sid { c with deadline := d } }

/-- pn_reactor_selectable (reactor.c lines 151-162): create a selectable,
link it to the collector, put SELECTABLE_INIT, set the reactor as its
context, add it to the children, install the release callback, and increment
the selectables count.  Returns the new state and the selectable's id. -/
def pn_reactor_selectable (r : Reactor) : Reactor × Nat :=
  let sid := r.nextId
  let r1 := pn_collector_put { r with nextId := sid + 1 } ⟨EvType.SELECTABLE_INIT, Ctx.selC sid⟩
  ({ r1 with children := r1.children ++ [⟨sid, false, false, 0, none⟩],
             selectables := r1.selectables + 1 }, sid)

/-- Modelled from the spec: timer contract, deadline() is the earliest
scheduled deadline (0 when the heap is empty). -/
def pn_timer_deadline (timer : List Int) : Int :=
  match timer with
  | [] => 0
  | d :: ds => ds.foldl min d

/-- pni_reactor_more (reactor.c lines 330-333): pn_timer_tasks(timer) is
nonzero or more than one selectable is registered. -/
def pni_reactor_more (r : Reactor) : Bool :=
  !r.timer.isEmpty || decide (1 < r.selectables)

/-- pn_reactor_yield (reactor.c lines 335-338). -/
def pn_reactor_yield (r : Reactor) : Reactor := { r with yield := true }

/-- pn_reactor_mark (reactor.c lines 55-58); pn_i_now() is the parameter t. -/
def pn_reactor_mark (t : Int) (r : Reactor) : Reactor := { r with now := t }

/-- Entity attachments as pn_event_handler consults them: the optional
PN_HANDLER entry. -/
structure EntAtt where
  handler : Option Nat
deriving DecidableEq, Repr

/-- Entity classes (the CID_* values pn_event_handler switches on). -/
inductive CId where
  | cid_reactor
  | cid_task
  | cid_transport
  | cid_delivery
  | cid_link
  | cid_session
  | cid_connection
  | cid_selectable
  | cid_other
deriving DecidableEq, Repr

/-- The view of an event that pn_event_handler consumes: its class, the
results of pn_event_link / pn_event_session / pn_event_connection (each an
entity with attachments, when associated), and the attachments of the
context when it is a task or a selectable. -/
structure PEvent where
  cls : CId
  elink : Option EntAtt
  esession : Option EntAtt
  econnection : Option EntAtt
  ctxTask : Option EntAtt
  ctxSel : Option EntAtt
deriving DecidableEq, Repr

/-- pn_event_handler (reactor.c lines 279-309): most specific first, the
link's attached handler, else the session's, else the connection's, else on
task/selectable events the context's attached handler, else the default. -/
def pn_event_handler (event : PEvent) (default_handler : Option Nat) : Option Nat :=
  match event.elink.bind EntAtt.handler with
  | some h => some h
  | none =>
    match event.esession.bind EntAtt.handler with
    | some h => some h
    | none =>
      match event.econnection.bind EntAtt.handler with
      | some h => some h
      | none =>
        match event.cls with
        | CId.cid_task =>
          match event.ctxTask.bind EntAtt.handler with
          | some h => some h
          | none => default_handler
        | CId.cid_selectable =>
          match event.ctxSel.bind EntAtt.handler with
          | some h => some h
          | none => default_handler
        | _ => default_handler

/-- The PEvent view of a collector event of this model: reactor events have
no associated link/session/connection; selectable events expose the
selectable's attachments; connection events expose the connection (whose
attachments carry no handler in this model, which registers none). -/
def evView (r : Reactor) (e : Ev) : PEvent :=
  match e.ctx with
  | Ctx.reactorC => ⟨CId.cid_reactor, none, none, none, none, none⟩
  | Ctx.selC sid => ⟨CId.cid_selectable, none, none, none, none,
      (childFind r.children sid).map (fun c => ⟨c.handler⟩)⟩
  | Ctx.connC _ => ⟨CId.cid_connection, none, none, some ⟨none⟩, none, none⟩

/-- Atomic observable actions of the dispatch loop, in program order. -/
inductive Act where
  | pre (e : Ev)
  | invoke (h : Option Nat) (e : Ev)
  | invokeGlobal (e : Ev)
  | post (e : Ev)
  | pop (e : Ev)
  | putQ (e : Ev)
deriving DecidableEq, Repr

/-- pni_reactor_dispatch_pre (reactor.c lines 179-189): on CONNECTION_INIT,
attach the weak PN_REACTOR reference to the connection's attachments. -/
def pni_reactor_dispatch_pre (r : Reactor) (e : Ev) : Reactor :=
  match e.etype, e.ctx with
  | EvType.CONNECTION_INIT, Ctx.connC cid => { r with boundConns := r.boundConns ++ [cid] }
  | _, _ => r

/-- pni_selectable_release (reactor.c lines 142-149): remove the selectable
from the children and decrement the count, only when it was present. -/
def pni_selectable_release (r : Reactor) (sid : Nat) : Reactor :=
  match childFind r.children sid with
  | some _ => { r with children := childRemove r.children sid,
                       selectables := r.selectables - 1 }
  | none => r

/-- Modelled from the spec: the global handler is the iohandler (handlers.h,
not in src/); its only effect on the modelled state is that on a
SELECTABLE_FINAL event it releases the selectable, which runs the installed
release callback pni_selectable_release. -/
def pn_global_dispatch (r : Reactor) (e : Ev) : Reactor :=
  match e.etype, e.ctx with
  | EvType.SELECTABLE_FINAL, Ctx.selC sid => pni_selectable_release r sid
  | _, _ => r

/-- pni_reactor_dispatch_post (reactor.c lines 193-203): on CONNECTION_FINAL
it invokes pni_handle_final (external cleanup, no modelled state change). -/
def pni_reactor_dispatch_post (r : Reactor) (_e : Ev) : Reactor := r

/-- One event dispatch as performed by the body of pn_reactor_process
(reactor.c lines 352-359): clear yield, pre-dispatch hook, resolve the
handler, invoke it, invoke the global handler, post-dispatch hook, record
previous, pop.  Returns the new state and the trace of actions. -/
def pn_reactor_dispatch_event (r : Reactor) (e : Ev) : Reactor × List Act :=
  let r0 := { r with yield := false }
  let r1 := pni_reactor_dispatch_pre r0 e
  let h := pn_event_handler (evView r1 e) r1.rootHandler
  let r2 := pn_global_dispatch r1 e
  let r3 := pni_reactor_dispatch_post r2 e
  let r4 := pn_collector_pop { r3 with previous := e.etype }
  (r4, [Act.pre e, Act.invoke h e, Act.invokeGlobal e, Act.post e, Act.pop e])

/-- The REACTOR_QUIESCED event the loop injects (context: the reactor). -/
def qev : Ev := ⟨EvType.REACTOR_QUIESCED, Ctx.reactorC⟩

/-- The REACTOR_FINAL event pn_reactor_stop puts (context: the reactor). -/
def fevt : Ev := ⟨EvType.REACTOR_FINAL, Ctx.reactorC⟩

/-- The while(true) loop of pn_reactor_process (reactor.c lines 344-377),
with the call-local `previous` as a parameter and explicit fuel. -/
def pn_reactor_process_loop : Nat → EvType → Reactor → Option (Bool × Reactor × List Act)
  | 0, _, _ => none
  | Nat.succ fuel, previous, r =>
    match pn_collector_peek r with
    | some e =>
      if r.yield then some (true, { r with yield := false }, [])
      else
        let p := pn_reactor_dispatch_event r e
        (pn_reactor_process_loop fuel e.etype p.1).map
          (fun x => (x.1, x.2.1, p.2 ++ x.2.2))
    | none =>
      if pni_reactor_more r then
        if (previous != EvType.REACTOR_QUIESCED) && (r.previous != EvType.REACTOR_FINAL) then
          (pn_reactor_process_loop fuel previous (pn_collector_put r qev)).map
            (fun x => (x.1, x.2.1, Act.putQ qev :: x.2.2))
        else some (true, r, [])
      else
        match r.selectable with
        | some sid =>
          pn_reactor_process_loop fuel previous
            { pn_reactor_update (pn_selectable_terminate r sid) sid with selectable := none }
        | none => some (false, r, [])

/-- pn_reactor_process (reactor.c lines 340-378): mark now, then run the
loop with the call-local previous starting at PN_EVENT_NONE. -/
def pn_reactor_process (fuel : Nat) (t : Int) (r : Reactor) : Option (Bool × Reactor × List Act) :=
  pn_reactor_process_loop fuel EvType.NONE (pn_reactor_mark t r)

/-- pn_reactor_schedule (reactor.c lines 311-321): schedule a task at
now + delay (the task's attachments, holding the weak reactor and the
handler, live in the external timer); if the timer selectable exists,
refresh its deadline and update it. -/
def pn_reactor_schedule (r : Reactor) (delay : Int) (_handler : Option Nat) : Reactor :=
  let r1 := { r with timer := r.timer ++ [r.now + delay] }
  match r1.selectable with
  | some sid => pn_reactor_update (setChildDeadline r1 sid (pn_timer_deadline r1.timer)) sid
  | none => r1

/-- pni_timer_selectable (reactor.c lines 387-393): register a selectable,
install the expired callback (external), set its deadline from the timer,
and update it. -/
def pni_timer_selectable (r : Reactor) : Reactor × Nat :=
  let p := pn_reactor_selectable r
  let r1 := setChildDeadline p.1 p.2 (pn_timer_deadline p.1.timer)
  (pn_reactor_update r1 p.2, p.2)

/-- pn_reactor_start (reactor.c lines 395-399): put REACTOR_INIT and
register the timer selectable. -/
def pn_reactor_start (r : Reactor) : Reactor :=
  let r1 := pn_collector_put r ⟨EvType.REACTOR_INIT, Ctx.reactorC⟩
  let p := pni_timer_selectable r1
  { p.1 with selectable := some p.2 }

/-- pn_reactor_work (reactor.c lines 401-405): store the timeout and process. -/
def pn_reactor_work (fuel : Nat) (t : Int) (timeout : Int) (r : Reactor) :
    Option (Bool × Reactor × List Act) :=
  pn_reactor_process fuel t { r with timeout := timeout }

/-- pn_reactor_stop (reactor.c lines 407-412): put REACTOR_FINAL, process,
release the collector. -/
def pn_reactor_stop (fuel : Nat) (t : Int) (r : Reactor) : Option (Bool × Reactor × List Act) :=
  (pn_reactor_process fuel t (pn_collector_put r fevt)).map
    (fun x => (x.1, pn_collector_release x.2.1, x.2.2))

/-- The while-work loop of pn_reactor_run followed by stop, with loop fuel.
Returns the final state, the list of process() results across the run
(the work calls' results followed by the stop-internal process result),
and the full action trace. -/
def pn_reactor_run_loop : Nat → Nat → Int → Reactor → Option (Reactor × List Bool × List Act)
  | 0, _, _, _ => none
  | Nat.succ n, pf, t, r =>
    match pn_reactor_work pf t 1000 r with
    | none => none
    | some (true, r', tr) =>
      (pn_reactor_run_loop n pf t r').map (fun x => (x.1, true :: x.2.1, tr ++ x.2.2))
    | some (false, r', tr) =>
      (pn_reactor_stop pf t r').map (fun x => (x.2.1, [false, x.1], tr ++ x.2.2))

/-- pn_reactor_run (reactor.c lines 414-419): start, while work(1000), stop. -/
def pn_reactor_run (n pf : Nat) (t : Int) (r : Reactor) : Option (Reactor × List Bool × List Act) :=
  pn_reactor_run_loop n pf t (pn_reactor_start r)

/-- The three effects pn_reactor_free performs on a non-null reactor, in
program order. -/
inductive FreeAct where
  | releaseCollector
  | freeHandler
  | dropRef
deriving DecidableEq, Repr

/-- pn_reactor_free (reactor.c lines 106-113): a null reactor is left alone
with no effect; otherwise release the collector, free the root handler and
null the field, and drop the reactor reference. -/
def pn_reactor_free (ro : Option Reactor) : Option Reactor × List FreeAct :=
  match ro with
  | none => (none, [])
  | some r =>
    (some { pn_collector_release r with rootHandler := none, refDropped := true },
     [FreeAct.releaseCollector, FreeAct.freeHandler, FreeAct.dropRef])

/-- pn_reactor_initialize (reactor.c lines 60-74): the freshly created
reactor, with the clock at 0. -/
def pn_reactor_new : Reactor :=
  { collector := [], released := false, log := [], previous := EvType.NONE, now := 0,
    selectables := 0, timer := [], selectable := none, children := [], boundConns := [],
    rootHandler := some 0, yield := false, timeout := 0, nextId := 0, refDropped := false }

/-- The stream of event types dispatched in an action trace (one pop per
dispatched event, in order). -/
def dtr (tr : List Act) : List EvType :=
  tr.filterMap (fun a => match a with | Act.pop e => some e.etype | _ => none)

/-- Occurrences of an event type in a stream. -/
def countTy (ty : EvType) : List EvType → Nat
  | [] => 0
  | t :: ts => (if t = ty then 1 else 0) + countTy ty ts

/-- No two adjacent REACTOR_QUIESCED entries. -/
def noAdjQ : List EvType → Bool
  | a :: b :: rest =>
    !((a == EvType.REACTOR_QUIESCED) && (b == EvType.REACTOR_QUIESCED)) && noAdjQ (b :: rest)
  | _ => true

/-- The queue contains no REACTOR_QUIESCED event. -/
def noQEv (es : List Ev) : Bool := es.all (fun e => e.etype != EvType.REACTOR_QUIESCED)

/-- Count of REACTOR_FINAL-typed events in a queue. -/
def countFq (es : List Ev) : Nat :=
  (es.filter (fun e => e.etype == EvType.REACTOR_FINAL)).length


/-! ### Field preservation lemmas -/

theorem put_released (r : Reactor) (e : Ev) : (pn_collector_put r e).released = r.released := by
  unfold pn_collector_put; split <;> rfl

theorem put_timer (r : Reactor) (e : Ev) : (pn_collector_put r e).timer = r.timer := by
  unfold pn_collector_put; split <;> rfl

theorem put_selectables (r : Reactor) (e : Ev) :
    (pn_collector_put r e).selectables = r.selectables := by
  unfold pn_collector_put; split <;> rfl

theorem put_selectable (r : Reactor) (e : Ev) :
    (pn_collector_put r e).selectable = r.selectable := by
  unfold pn_collector_put; split <;> rfl

theorem put_previous (r : Reactor) (e : Ev) : (pn_collector_put r e).previous = r.previous := by
  unfold pn_collector_put; split <;> rfl

theorem put_yield (r : Reactor) (e : Ev) : (pn_collector_put r e).yield = r.yield := by
  unfold pn_collector_put; split <;> rfl

theorem put_now (r : Reactor) (e : Ev) : (pn_collector_put r e).now = r.now := by
  unfold pn_collector_put; split <;> rfl

theorem put_children (r : Reactor) (e : Ev) : (pn_collector_put r e).children = r.children := by
  unfold pn_collector_put; split <;> rfl

theorem put_of_released (r : Reactor) (e : Ev) (h : r.released = true) :
    pn_collector_put r e = r := by
  unfold pn_collector_put; simp [h]

theorem put_collector (r : Reactor) (e : Ev) (h : r.released = false) :
    (pn_collector_put r e).collector = r.collector ++ [e] := by
  unfold pn_collector_put; simp [h]

theorem put_log (r : Reactor) (e : Ev) (h : r.released = false) :
    (pn_collector_put r e).log = r.log ++ [e] := by
  unfold pn_collector_put; simp [h]

theorem pre_collector (r : Reactor) (e : Ev) :
    (pni_reactor_dispatch_pre r e).collector = r.collector := by
  unfold pni_reactor_dispatch_pre; split <;> rfl

theorem pre_released (r : Reactor) (e : Ev) :
    (pni_reactor_dispatch_pre r e).released = r.released := by
  unfold pni_reactor_dispatch_pre; split <;> rfl

theorem pre_timer (r : Reactor) (e : Ev) :
    (pni_reactor_dispatch_pre r e).timer = r.timer := by
  unfold pni_reactor_dispatch_pre; split <;> rfl

theorem pre_selectables (r : Reactor) (e : Ev) :
    (pni_reactor_dispatch_pre r e).selectables = r.selectables := by
  unfold pni_reactor_dispatch_pre; split <;> rfl

theorem pre_selectable (r : Reactor) (e : Ev) :
    (pni_reactor_dispatch_pre r e).selectable = r.selectable := by
  unfold pni_reactor_dispatch_pre; split <;> rfl

theorem pre_yield (r : Reactor) (e : Ev) :
    (pni_reactor_dispatch_pre r e).yield = r.yield := by
  unfold pni_reactor_dispatch_pre; split <;> rfl

theorem pre_now (r : Reactor) (e : Ev) :
    (pni_reactor_dispatch_pre r e).now = r.now := by
  unfold pni_reactor_dispatch_pre; split <;> rfl

theorem pre_log (r : Reactor) (e : Ev) :
    (pni_reactor_dispatch_pre r e).log = r.log := by
  unfold pni_reactor_dispatch_pre; split <;> rfl

theorem pre_rootHandler (r : Reactor) (e : Ev) :
    (pni_reactor_dispatch_pre r e).rootHandler = r.rootHandler := by
  unfold pni_reactor_dispatch_pre; split <;> rfl

theorem pre_children (r : Reactor) (e : Ev) :
    (pni_reactor_dispatch_pre r e).children = r.children := by
  unfold pni_reactor_dispatch_pre; split <;> rfl

theorem rel_collector (r : Reactor) (sid : Nat) :
    (pni_selectable_release r sid).collector = r.collector := by
  unfold pni_selectable_release; split <;> rfl

theorem rel_released (r : Reactor) (sid : Nat) :
    (pni_selectable_release r sid).released = r.released := by
  unfold pni_selectable_release; split <;> rfl

theorem rel_timer (r : Reactor) (sid : Nat) :
    (pni_selectable_release r sid).timer = r.timer := by
  unfold pni_selectable_release; split <;> rfl

theorem rel_selectable (r : Reactor) (sid : Nat) :
    (pni_selectable_release r sid).selectable = r.selectable := by
  unfold pni_selectable_release; split <;> rfl

theorem rel_yield (r : Reactor) (sid : Nat) :
    (pni_selectable_release r sid).yield = r.yield := by
  unfold pni_selectable_release; split <;> rfl

theorem rel_now (r : Reactor) (sid : Nat) :
    (pni_selectable_release r sid).now = r.now := by
  unfold pni_selectable_release; split <;> rfl

theorem rel_log (r : Reactor) (sid : Nat) :
    (pni_selectable_release r sid).log = r.log := by
  unfold pni_selectable_release; split <;> rfl

theorem rel_selectables_le (r : Reactor) (sid : Nat) :
    (pni_selectable_release r sid).selectables ≤ r.selectables := by
  unfold pni_selectable_release; split
  · simp
  · exact le_refl _

theorem glob_collector (r : Reactor) (e : Ev) :
    (pn_global_dispatch r e).collector = r.collector := by
  unfold pn_global_dispatch; split
  · exact rel_collector _ _
  · rfl

theorem glob_released (r : Reactor) (e : Ev) :
    (pn_global_dispatch r e).released = r.released := by
  unfold pn_global_dispatch; split
  · exact rel_released _ _
  · rfl

theorem glob_timer (r : Reactor) (e : Ev) :
    (pn_global_dispatch r e).timer = r.timer := by
  unfold pn_global_dispatch; split
  · exact rel_timer _ _
  · rfl

theorem glob_selectable (r : Reactor) (e : Ev) :
    (pn_global_dispatch r e).selectable = r.selectable := by
  unfold pn_global_dispatch; split
  · exact rel_selectable _ _
  · rfl

theorem glob_yield (r : Reactor) (e : Ev) :
    (pn_global_dispatch r e).yield = r.yield := by
  unfold pn_global_dispatch; split
  · exact rel_yield _ _
  · rfl

theorem glob_now (r : Reactor) (e : Ev) :
    (pn_global_dispatch r e).now = r.now := by
  unfold pn_global_dispatch; split
  · exact rel_now _ _
  · rfl

theorem glob_log (r : Reactor) (e : Ev) :
    (pn_global_dispatch r e).log = r.log := by
  unfold pn_global_dispatch; split
  · exact rel_log _ _
  · rfl

theorem glob_selectables_le (r : Reactor) (e : Ev) :
    (pn_global_dispatch r e).selectables ≤ r.selectables := by
  unfold pn_global_dispatch; split
  · exact rel_selectables_le _ _
  · exact le_refl _

/-! ### Dispatch step lemmas -/

theorem dispatch_trace (r : Reactor) (e : Ev) :
    (pn_reactor_dispatch_event r e).2 =
      [Act.pre e, Act.invoke (pn_event_handler (evView (pni_reactor_dispatch_pre { r with yield := false } e) e) r.rootHandler) e,
       Act.invokeGlobal e, Act.post e, Act.pop e] := by
  unfold pn_reactor_dispatch_event
  simp [pre_rootHandler]

theorem dispatch_collector (r : Reactor) (e : Ev) :
    (pn_reactor_dispatch_event r e).1.collector = r.collector.tail := by
  unfold pn_reactor_dispatch_event pni_reactor_dispatch_post pn_collector_pop
  simp [glob_collector, pre_collector]

theorem dispatch_released (r : Reactor) (e : Ev) :
    (pn_reactor_dispatch_event r e).1.released = r.released := by
  unfold pn_reactor_dispatch_event pni_reactor_dispatch_post pn_collector_pop
  simp [glob_released, pre_released]

theorem dispatch_timer (r : Reactor) (e : Ev) :
    (pn_reactor_dispatch_event r e).1.timer = r.timer := by
  unfold pn_reactor_dispatch_event pni_reactor_dispatch_post pn_collector_pop
  simp [glob_timer, pre_timer]

theorem dispatch_selectable (r : Reactor) (e : Ev) :
    (pn_reactor_dispatch_event r e).1.selectable = r.selectable := by
  unfold pn_reactor_dispatch_event pni_reactor_dispatch_post pn_collector_pop
  simp [glob_selectable, pre_selectable]

theorem dispatch_previous (r : Reactor) (e : Ev) :
    (pn_reactor_dispatch_event r e).1.previous = e.etype := by
  unfold pn_reactor_dispatch_event pni_reactor_dispatch_post pn_collector_pop
  simp

theorem dispatch_yield (r : Reactor) (e : Ev) :
    (pn_reactor_dispatch_event r e).1.yield = false := by
  unfold pn_reactor_dispatch_event pni_reactor_dispatch_post pn_collector_pop
  simp [glob_yield, pre_yield]

theorem dispatch_now (r : Reactor) (e : Ev) :
    (pn_reactor_dispatch_event r e).1.now = r.now := by
  unfold pn_reactor_dispatch_event pni_reactor_dispatch_post pn_collector_pop
  simp [glob_now, pre_now]

theorem dispatch_log (r : Reactor) (e : Ev) :
    (pn_reactor_dispatch_event r e).1.log = r.log := by
  unfold pn_reactor_dispatch_event pni_reactor_dispatch_post pn_collector_pop
  simp [glob_log, pre_log]

theorem dispatch_selectables_le (r : Reactor) (e : Ev) :
    (pn_reactor_dispatch_event r e).1.selectables ≤ r.selectables := by
  unfold pn_reactor_dispatch_event pni_reactor_dispatch_post pn_collector_pop
  simp only []
  calc (pn_global_dispatch (pni_reactor_dispatch_pre { r with yield := false } e) e).selectables
      ≤ (pni_reactor_dispatch_pre { r with yield := false } e).selectables :=
        glob_selectables_le _ _
    _ = r.selectables := pre_selectables _ _

/-! ### pni_reactor_more lemmas -/

theorem more_congr (a b : Reactor) (h1 : a.timer = b.timer) (h2 : a.selectables = b.selectables) :
    pni_reactor_more a = pni_reactor_more b := by
  unfold pni_reactor_more; rw [h1, h2]

theorem more_mono (a b : Reactor) (h1 : a.timer = b.timer) (h2 : a.selectables ≤ b.selectables)
    (h : pni_reactor_more a = true) : pni_reactor_more b = true := by
  unfold pni_reactor_more at h ⊢
  rw [← h1]
  rcases Bool.or_eq_true_iff.mp h with h' | h'
  · exact Bool.or_eq_true_iff.mpr (Or.inl h')
  · refine Bool.or_eq_true_iff.mpr (Or.inr ?_)
    have := of_decide_eq_true h'
    exact decide_eq_true (lt_of_lt_of_le this h2)

theorem more_put (r : Reactor) (e : Ev) :
    pni_reactor_more (pn_collector_put r e) = pni_reactor_more r :=
  more_congr _ _ (put_timer r e) (put_selectables r e)

theorem more_dispatch (r : Reactor) (e : Ev)
    (h : pni_reactor_more (pn_reactor_dispatch_event r e).1 = true) :
    pni_reactor_more r = true :=
  more_mono _ _ (dispatch_timer r e) (dispatch_selectables_le r e) h

/-! ### Loop branch lemmas -/

theorem loop_yield_eq (fuel : Nat) (prev : EvType) (r : Reactor) (e : Ev)
    (hp : pn_collector_peek r = some e) (hy : r.yield = true) :
    pn_reactor_process_loop (fuel + 1) prev r = some (true, { r with yield := false }, []) := by
  unfold pn_reactor_process_loop
  rw [hp]; simp [hy]

theorem loop_dispatch_eq (fuel : Nat) (prev : EvType) (r : Reactor) (e : Ev)
    (hp : pn_collector_peek r = some e) (hy : r.yield = false) :
    pn_reactor_process_loop (fuel + 1) prev r =
      (pn_reactor_process_loop fuel e.etype (pn_reactor_dispatch_event r e).1).map
        (fun x => (x.1, x.2.1, (pn_reactor_dispatch_event r e).2 ++ x.2.2)) := by
  conv_lhs => unfold pn_reactor_process_loop
  rw [hp]; simp [hy]

theorem loop_inject_eq (fuel : Nat) (prev : EvType) (r : Reactor)
    (hp : pn_collector_peek r = none) (hm : pni_reactor_more r = true)
    (hg : ((prev != EvType.REACTOR_QUIESCED) && (r.previous != EvType.REACTOR_FINAL)) = true) :
    pn_reactor_process_loop (fuel + 1) prev r =
      (pn_reactor_process_loop fuel prev (pn_collector_put r qev)).map
        (fun x => (x.1, x.2.1, Act.putQ qev :: x.2.2)) := by
  conv_lhs => unfold pn_reactor_process_loop
  rw [hp]; simp [hm, hg]

theorem loop_blocked_eq (fuel : Nat) (prev : EvType) (r : Reactor)
    (hp : pn_collector_peek r = none) (hm : pni_reactor_more r = true)
    (hg : ((prev != EvType.REACTOR_QUIESCED) && (r.previous != EvType.REACTOR_FINAL)) = false) :
    pn_reactor_process_loop (fuel + 1) prev r = some (true, r, []) := by
  conv_lhs => unfold pn_reactor_process_loop
  rw [hp]; simp [hm, hg]

theorem loop_terminate_eq (fuel : Nat) (prev : EvType) (r : Reactor) (sid : Nat)
    (hp : pn_collector_peek r = none) (hm : pni_reactor_more r = false)
    (hs : r.selectable = some sid) :
    pn_reactor_process_loop (fuel + 1) prev r =
      pn_reactor_process_loop fuel prev
        { pn_reactor_update (pn_selectable_terminate r sid) sid with selectable := none } := by
  conv_lhs => unfold pn_reactor_process_loop
  rw [hp]; simp [hm, hs]

theorem loop_drained_eq (fuel : Nat) (prev : EvType) (r : Reactor)
    (hp : pn_collector_peek r = none) (hm : pni_reactor_more r = false)
    (hs : r.selectable = none) :
    pn_reactor_process_loop (fuel + 1) prev r = some (false, r, []) := by
  conv_lhs => unfold pn_reactor_process_loop
  rw [hp]; simp [hm, hs]


/-! ### Peek and small structural lemmas -/

theorem loop_zero (prev : EvType) (r : Reactor) :
    pn_reactor_process_loop 0 prev r = none := rfl

theorem peek_released (r : Reactor) (e : Ev) (hp : pn_collector_peek r = some e) :
    r.released = false := by
  unfold pn_collector_peek at hp
  cases hr : r.released
  · rfl
  · rw [hr] at hp; simp at hp

theorem peek_head (r : Reactor) (e : Ev) (hp : pn_collector_peek r = some e) :
    r.collector.head? = some e := by
  unfold pn_collector_peek at hp
  rw [peek_released r e (by unfold pn_collector_peek; exact hp)] at hp
  simpa using hp

theorem peek_ne_nil (r : Reactor) (e : Ev) (hp : pn_collector_peek r = some e) :
    r.collector ≠ [] := by
  have h := peek_head r e hp
  cases hc : r.collector
  · rw [hc] at h; simp at h
  · simp

theorem peek_none_cases (r : Reactor) (hp : pn_collector_peek r = none) :
    r.released = true ∨ r.collector = [] := by
  unfold pn_collector_peek at hp
  cases hr : r.released
  · rw [hr] at hp
    simp at hp
    right
    cases hc : r.collector
    · rfl
    · rw [hc] at hp; simp at hp
  · left; rfl

theorem yield_clear_id (r : Reactor) (h : r.yield = false) :
    { r with yield := false } = r := by
  cases r
  simp_all

theorem mark_id (r : Reactor) : pn_reactor_mark r.now r = r := rfl

theorem release_id (r : Reactor) (h1 : r.released = true) (h2 : r.collector = []) :
    pn_collector_release r = r := by
  unfold pn_collector_release
  rw [show ([] : List Ev) = r.collector from h2.symm,
      show true = r.released from h1.symm]

/-! ### pn_reactor_update and pn_selectable_terminate field lemmas -/

theorem upd_released (r : Reactor) (sid : Nat) :
    (pn_reactor_update r sid).released = r.released := by
  unfold pn_reactor_update; split
  · rfl
  · split
    · rfl
    · split <;> simp [put_released]

theorem upd_timer (r : Reactor) (sid : Nat) :
    (pn_reactor_update r sid).timer = r.timer := by
  unfold pn_reactor_update; split
  · rfl
  · split
    · rfl
    · split <;> simp [put_timer]

theorem upd_selectables (r : Reactor) (sid : Nat) :
    (pn_reactor_update r sid).selectables = r.selectables := by
  unfold pn_reactor_update; split
  · rfl
  · split
    · rfl
    · split <;> simp [put_selectables]

theorem upd_selectable (r : Reactor) (sid : Nat) :
    (pn_reactor_update r sid).selectable = r.selectable := by
  unfold pn_reactor_update; split
  · rfl
  · split
    · rfl
    · split <;> simp [put_selectable]

theorem upd_previous (r : Reactor) (sid : Nat) :
    (pn_reactor_update r sid).previous = r.previous := by
  unfold pn_reactor_update; split
  · rfl
  · split
    · rfl
    · split <;> simp [put_previous]

theorem upd_yield (r : Reactor) (sid : Nat) :
    (pn_reactor_update r sid).yield = r.yield := by
  unfold pn_reactor_update; split
  · rfl
  · split
    · rfl
    · split <;> simp [put_yield]

theorem upd_now (r : Reactor) (sid : Nat) :
    (pn_reactor_update r sid).now = r.now := by
  unfold pn_reactor_update; split
  · rfl
  · split
    · rfl
    · split <;> simp [put_now]

theorem upd_collector_cases (r : Reactor) (sid : Nat) :
    (pn_reactor_update r sid).collector = r.collector ∨
    (pn_reactor_update r sid).collector = r.collector ++ [⟨EvType.SELECTABLE_UPDATED, Ctx.selC sid⟩] ∨
    (pn_reactor_update r sid).collector = r.collector ++ [⟨EvType.SELECTABLE_FINAL, Ctx.selC sid⟩] := by
  unfold pn_reactor_update; split
  · exact Or.inl rfl
  · split
    · exact Or.inl rfl
    · split
      · cases hr : r.released
        · refine Or.inr (Or.inr ?_)
          simp [pn_collector_put, hr]
        · refine Or.inl ?_
          simp [pn_collector_put, hr]
      · cases hr : r.released
        · refine Or.inr (Or.inl ?_)
          simp [pn_collector_put, hr]
        · refine Or.inl ?_
          simp [pn_collector_put, hr]

theorem upd_collector_released (r : Reactor) (sid : Nat) (hr : r.released = true) :
    (pn_reactor_update r sid).collector = r.collector := by
  unfold pn_reactor_update; split
  · rfl
  · split
    · rfl
    · split <;> simp [pn_collector_put, hr]

theorem more_upd (r : Reactor) (sid : Nat) :
    pni_reactor_more (pn_reactor_update r sid) = pni_reactor_more r :=
  more_congr _ _ (upd_timer r sid) (upd_selectables r sid)

theorem term_collector (r : Reactor) (sid : Nat) :
    (pn_selectable_terminate r sid).collector = r.collector := by
  unfold pn_selectable_terminate; split <;> rfl

theorem term_released (r : Reactor) (sid : Nat) :
    (pn_selectable_terminate r sid).released = r.released := by
  unfold pn_selectable_terminate; split <;> rfl

theorem term_timer (r : Reactor) (sid : Nat) :
    (pn_selectable_terminate r sid).timer = r.timer := by
  unfold pn_selectable_terminate; split <;> rfl

theorem term_selectables (r : Reactor) (sid : Nat) :
    (pn_selectable_terminate r sid).selectables = r.selectables := by
  unfold pn_selectable_terminate; split <;> rfl

theorem term_selectable (r : Reactor) (sid : Nat) :
    (pn_selectable_terminate r sid).selectable = r.selectable := by
  unfold pn_selectable_terminate; split <;> rfl

theorem term_previous (r : Reactor) (sid : Nat) :
    (pn_selectable_terminate r sid).previous = r.previous := by
  unfold pn_selectable_terminate; split <;> rfl

theorem term_yield (r : Reactor) (sid : Nat) :
    (pn_selectable_terminate r sid).yield = r.yield := by
  unfold pn_selectable_terminate; split <;> rfl

theorem term_now (r : Reactor) (sid : Nat) :
    (pn_selectable_terminate r sid).now = r.now := by
  unfold pn_selectable_terminate; split <;> rfl

theorem more_term (r : Reactor) (sid : Nat) :
    pni_reactor_more (pn_selectable_terminate r sid) = pni_reactor_more r :=
  more_congr _ _ (term_timer r sid) (term_selectables r sid)

/-! ### Invariants preserved by the process loop -/

theorem loop_pres : ∀ (fuel : Nat) (prev : EvType) (r : Reactor) (b : Bool) (r' : Reactor)
    (tr : List Act), pn_reactor_process_loop fuel prev r = some (b, r', tr) →
    r'.released = r.released ∧ r'.now = r.now ∧ r'.timer = r.timer ∧
      (r.yield = false → r'.yield = false) := by
  intro fuel
  induction fuel with
  | zero =>
    intro prev r b r' tr h
    rw [loop_zero] at h
    exact absurd h (by simp)
  | succ n ih =>
    intro prev r b r' tr h
    cases hp : pn_collector_peek r with
    | some e =>
      cases hy : r.yield with
      | true =>
        rw [loop_yield_eq n prev r e hp hy] at h
        simp only [Option.some.injEq, Prod.mk.injEq] at h
        obtain ⟨hb, hr, htr⟩ := h
        subst hr
        simp
      | false =>
        rw [loop_dispatch_eq n prev r e hp hy] at h
        cases hl : pn_reactor_process_loop n e.etype (pn_reactor_dispatch_event r e).1 with
        | none => rw [hl] at h; simp at h
        | some x =>
          obtain ⟨b0, r0, tr0⟩ := x
          rw [hl] at h
          simp only [Option.map_some', Option.some.injEq, Prod.mk.injEq] at h
          obtain ⟨hb, hr, htr⟩ := h
          subst hr
          obtain ⟨h1, h2, h3, h4⟩ := ih _ _ _ _ _ hl
          refine ⟨?_, ?_, ?_, ?_⟩
          · rw [h1, dispatch_released]
          · rw [h2, dispatch_now]
          · rw [h3, dispatch_timer]
          · intro; exact h4 (dispatch_yield r e)
    | none =>
      cases hm : pni_reactor_more r with
      | true =>
        cases hg : (prev != EvType.REACTOR_QUIESCED) && (r.previous != EvType.REACTOR_FINAL) with
        | true =>
          rw [loop_inject_eq n prev r hp hm hg] at h
          cases hl : pn_reactor_process_loop n prev (pn_collector_put r qev) with
          | none => rw [hl] at h; simp at h
          | some x =>
            obtain ⟨b0, r0, tr0⟩ := x
            rw [hl] at h
            simp only [Option.map_some', Option.some.injEq, Prod.mk.injEq] at h
            obtain ⟨hb, hr, htr⟩ := h
            subst hr
            obtain ⟨h1, h2, h3, h4⟩ := ih _ _ _ _ _ hl
            refine ⟨?_, ?_, ?_, ?_⟩
            · rw [h1, put_released]
            · rw [h2, put_now]
            · rw [h3, put_timer]
            · intro hy; exact h4 (by rw [put_yield]; exact hy)
        | false =>
          rw [loop_blocked_eq n prev r hp hm hg] at h
          simp only [Option.some.injEq, Prod.mk.injEq] at h
          obtain ⟨hb, hr, htr⟩ := h
          subst hr
          simp
      | false =>
        cases hs : r.selectable with
        | some sid =>
          rw [loop_terminate_eq n prev r sid hp hm hs] at h
          obtain ⟨h1, h2, h3, h4⟩ := ih _ _ _ _ _ h
          refine ⟨?_, ?_, ?_, ?_⟩
          · rw [h1]; simp [upd_released, term_released]
          · rw [h2]; simp [upd_now, term_now]
          · rw [h3]; simp [upd_timer, term_timer]
          · intro hy; exact h4 (by simp [upd_yield, term_yield]; exact hy)
        | none =>
          rw [loop_drained_eq n prev r hp hm hs] at h
          simp only [Option.some.injEq, Prod.mk.injEq] at h
          obtain ⟨hb, hr, htr⟩ := h
          subst hr
          exact ⟨rfl, rfl, rfl, fun hy => hy⟩

/-- The return value of the loop characterizes the drained state: true means
an event is still pending or more() holds in the final state, false means the
reactor is fully drained (empty collector, no more work, timer selectable
gone). -/
theorem loop_ret : ∀ (fuel : Nat) (prev : EvType) (r : Reactor) (b : Bool) (r' : Reactor)
    (tr : List Act), pn_reactor_process_loop fuel prev r = some (b, r', tr) →
    (r.released = true → r.collector = []) →
    ((b = true ↔ (r'.collector ≠ [] ∨ pni_reactor_more r' = true)) ∧
     (b = false → r'.collector = [] ∧ pni_reactor_more r' = false ∧ r'.selectable = none)) := by
  intro fuel
  induction fuel with
  | zero =>
    intro prev r b r' tr h
    rw [loop_zero] at h
    exact absurd h (by simp)
  | succ n ih =>
    intro prev r b r' tr h hwf
    cases hp : pn_collector_peek r with
    | some e =>
      cases hy : r.yield with
      | true =>
        rw [loop_yield_eq n prev r e hp hy] at h
        simp only [Option.some.injEq, Prod.mk.injEq] at h
        obtain ⟨hb, hr, htr⟩ := h
        subst hr
        constructor
        · constructor
          · intro
            left
            simpa using peek_ne_nil r e hp
          · intro
            exact hb.symm
        · intro hfalse
          rw [← hb] at hfalse
          simp at hfalse
      | false =>
        rw [loop_dispatch_eq n prev r e hp hy] at h
        cases hl : pn_reactor_process_loop n e.etype (pn_reactor_dispatch_event r e).1 with
        | none => rw [hl] at h; simp at h
        | some x =>
          obtain ⟨b0, r0, tr0⟩ := x
          rw [hl] at h
          simp only [Option.map_some', Option.some.injEq, Prod.mk.injEq] at h
          obtain ⟨hb, hr, htr⟩ := h
          subst hb hr
          exact ih _ _ _ _ _ hl
            (by rw [dispatch_released]; intro hrel; rw [peek_released r e hp] at hrel; cases hrel)
    | none =>
      cases hm : pni_reactor_more r with
      | true =>
        cases hg : (prev != EvType.REACTOR_QUIESCED) && (r.previous != EvType.REACTOR_FINAL) with
        | true =>
          rw [loop_inject_eq n prev r hp hm hg] at h
          cases hl : pn_reactor_process_loop n prev (pn_collector_put r qev) with
          | none => rw [hl] at h; simp at h
          | some x =>
            obtain ⟨b0, r0, tr0⟩ := x
            rw [hl] at h
            simp only [Option.map_some', Option.some.injEq, Prod.mk.injEq] at h
            obtain ⟨hb, hr, htr⟩ := h
            subst hb hr
            refine ih _ _ _ _ _ hl ?_
            intro hrel
            rw [put_released] at hrel
            rw [put_of_released r qev hrel]
            exact hwf hrel
        | false =>
          rw [loop_blocked_eq n prev r hp hm hg] at h
          simp only [Option.some.injEq, Prod.mk.injEq] at h
          obtain ⟨hb, hr, htr⟩ := h
          subst hr
          constructor
          · exact ⟨fun _ => Or.inr hm, fun _ => hb.symm⟩
          · intro hfalse
            rw [← hb] at hfalse
            simp at hfalse
      | false =>
        cases hs : r.selectable with
        | some sid =>
          rw [loop_terminate_eq n prev r sid hp hm hs] at h
          refine ih _ _ _ _ _ h ?_
          intro hrel
          simp only [upd_released, term_released] at hrel
          rw [upd_collector_released _ _ (by rw [term_released]; exact hrel), term_collector]
          exact hwf hrel
        | none =>
          rw [loop_drained_eq n prev r hp hm hs] at h
          simp only [Option.some.injEq, Prod.mk.injEq] at h
          obtain ⟨hb, hr, htr⟩ := h
          subst hr
          have hcol : r.collector = [] := by
            rcases peek_none_cases r hp with hrel | hempty
            · exact hwf hrel
            · exact hempty
          constructor
          · constructor
            · intro htrue
              rw [htrue] at hb
              cases hb
            · intro hor
              rcases hor with hne | hmore
              · exact absurd hcol hne
              · rw [hmore] at hm; cases hm
          · intro
            exact ⟨hcol, hm, hs⟩


/-! ### Claim C1: the pn_reactor_process contract -/

/-- C1: process() repeatedly dispatches queued events; with the queue empty
and more() true it enqueues REACTOR_QUIESCED (context: the reactor) exactly
when the call-local previous is not REACTOR_QUIESCED and the persistent
previous is not REACTOR_FINAL, and otherwise returns true; with the queue
empty and more() false it first terminates and drains the timer selectable
if it still exists and then returns false; the overall result is true iff
the final state still has potential work (a pending event or more() true)
and false iff it is fully drained. -/
theorem c1_process_contract (fuel : Nat) (prev : EvType) (r : Reactor) (sid : Nat)
    (b : Bool) (r' : Reactor) (tr : List Act) (t : Int) :
    (pn_collector_peek r = none → pni_reactor_more r = true →
      ((prev != EvType.REACTOR_QUIESCED) && (r.previous != EvType.REACTOR_FINAL)) = true →
      pn_reactor_process_loop (fuel + 1) prev r =
        (pn_reactor_process_loop fuel prev (pn_collector_put r qev)).map
          (fun x => (x.1, x.2.1, Act.putQ qev :: x.2.2))) ∧
    (pn_collector_peek r = none → pni_reactor_more r = true →
      ((prev != EvType.REACTOR_QUIESCED) && (r.previous != EvType.REACTOR_FINAL)) = false →
      pn_reactor_process_loop (fuel + 1) prev r = some (true, r, [])) ∧
    (pn_collector_peek r = none → pni_reactor_more r = false → r.selectable = some sid →
      pn_reactor_process_loop (fuel + 1) prev r =
        pn_reactor_process_loop fuel prev
          { pn_reactor_update (pn_selectable_terminate r sid) sid with selectable := none }) ∧
    (pn_collector_peek r = none → pni_reactor_more r = false → r.selectable = none →
      pn_reactor_process_loop (fuel + 1) prev r = some (false, r, [])) ∧
    (pn_reactor_process fuel t r = some (b, r', tr) →
      (r.released = true → r.collector = []) →
      ((b = true ↔ (r'.collector ≠ [] ∨ pni_reactor_more r' = true)) ∧
       (b = false → r'.collector = [] ∧ pni_reactor_more r' = false ∧ r'.selectable = none))) := by
  refine ⟨loop_inject_eq fuel prev r, loop_blocked_eq fuel prev r,
    loop_terminate_eq fuel prev r sid, loop_drained_eq fuel prev r, ?_⟩
  intro h hwf
  exact loop_ret fuel EvType.NONE (pn_reactor_mark t r) b r' tr h hwf

/-- A reactor with one scheduled task (an empty queue and more() true). -/
def c1wA : Reactor := { pn_reactor_new with timer := [5] }

/-- Same, but the persistent previous is REACTOR_FINAL (quiesce blocked). -/
def c1wB : Reactor := { pn_reactor_new with timer := [5], previous := EvType.REACTOR_FINAL }

/-- A started reactor with its queue cleared: timer selectable alive,
more() false. -/
def c1wC : Reactor := { pn_reactor_start pn_reactor_new with collector := [] }

/-- The state after processing a freshly started reactor. -/
def c1wR : Reactor :=
  ((pn_reactor_process 10 0 (pn_reactor_start pn_reactor_new)).map (fun x => x.2.1)).getD
    pn_reactor_new

/-- The trace of processing a freshly started reactor. -/
def c1wT : List Act :=
  ((pn_reactor_process 10 0 (pn_reactor_start pn_reactor_new)).map (fun x => x.2.2)).getD []

theorem c1_process_contract_witness :
    (pn_reactor_process_loop 4 EvType.NONE c1wA =
      (pn_reactor_process_loop 3 EvType.NONE (pn_collector_put c1wA qev)).map
        (fun x => (x.1, x.2.1, Act.putQ qev :: x.2.2))) ∧
    (pn_reactor_process_loop 4 EvType.NONE c1wB = some (true, c1wB, [])) ∧
    (pn_reactor_process_loop 4 EvType.NONE c1wC =
      pn_reactor_process_loop 3 EvType.NONE
        { pn_reactor_update (pn_selectable_terminate c1wC 0) 0 with selectable := none }) ∧
    (pn_reactor_process_loop 4 EvType.NONE pn_reactor_new = some (false, pn_reactor_new, [])) ∧
    ((false = true ↔ (c1wR.collector ≠ [] ∨ pni_reactor_more c1wR = true)) ∧
     (false = false → c1wR.collector = [] ∧ pni_reactor_more c1wR = false ∧
       c1wR.selectable = none)) := by
  refine ⟨?_, ?_, ?_, ?_, ?_⟩
  · exact (c1_process_contract 3 EvType.NONE c1wA 0 false c1wA [] 0).1
      (by decide) (by decide) (by decide)
  · exact (c1_process_contract 3 EvType.NONE c1wB 0 false c1wB [] 0).2.1
      (by decide) (by decide) (by decide)
  · exact (c1_process_contract 3 EvType.NONE c1wC 0 false c1wC [] 0).2.2.1
      (by decide) (by decide) (by decide)
  · exact (c1_process_contract 3 EvType.NONE pn_reactor_new 0 false pn_reactor_new [] 0).2.2.2.1
      (by decide) (by decide) (by decide)
  · exact (c1_process_contract 10 EvType.NONE (pn_reactor_start pn_reactor_new) 0 false
      c1wR c1wT 0).2.2.2.2 (by decide) (by decide)

/-! ### Claim C9: the unconditional yield clear is redundant -/

/-- The dispatch step of the process() variant the claim considers:
identical to pn_reactor_dispatch_event except that the unconditional clear
of the yield flag (reactor.c line 352) is removed. -/
def pn_reactor_dispatch_event_nc (r : Reactor) (e : Ev) : Reactor × List Act :=
  let r1 := pni_reactor_dispatch_pre r e
  let h := pn_event_handler (evView r1 e) r1.rootHandler
  let r2 := pn_global_dispatch r1 e
  let r3 := pni_reactor_dispatch_post r2 e
  let r4 := pn_collector_pop { r3 with previous := e.etype }
  (r4, [Act.pre e, Act.invoke h e, Act.invokeGlobal e, Act.post e, Act.pop e])

/-- The loop of the variant of pn_reactor_process with the unconditional
yield clear removed; otherwise identical to pn_reactor_process_loop. -/
def pn_reactor_process_loop_nc : Nat → EvType → Reactor → Option (Bool × Reactor × List Act)
  | 0, _, _ => none
  | Nat.succ fuel, previous, r =>
    match pn_collector_peek r with
    | some e =>
      if r.yield then some (true, { r with yield := false }, [])
      else
        let p := pn_reactor_dispatch_event_nc r e
        (pn_reactor_process_loop_nc fuel e.etype p.1).map
          (fun x => (x.1, x.2.1, p.2 ++ x.2.2))
    | none =>
      if pni_reactor_more r then
        if (previous != EvType.REACTOR_QUIESCED) && (r.previous != EvType.REACTOR_FINAL) then
          (pn_reactor_process_loop_nc fuel previous (pn_collector_put r qev)).map
            (fun x => (x.1, x.2.1, Act.putQ qev :: x.2.2))
        else some (true, r, [])
      else
        match r.selectable with
        | some sid =>
          pn_reactor_process_loop_nc fuel previous
            { pn_reactor_update (pn_selectable_terminate r sid) sid with selectable := none }
        | none => some (false, r, [])

/-- The variant of pn_reactor_process with the unconditional yield clear
removed. -/
def pn_reactor_process_nc (fuel : Nat) (t : Int) (r : Reactor) :
    Option (Bool × Reactor × List Act) :=
  pn_reactor_process_loop_nc fuel EvType.NONE (pn_reactor_mark t r)

theorem loop_nc_yield_eq (fuel : Nat) (prev : EvType) (r : Reactor) (e : Ev)
    (hp : pn_collector_peek r = some e) (hy : r.yield = true) :
    pn_reactor_process_loop_nc (fuel + 1) prev r = some (true, { r with yield := false }, []) := by
  conv_lhs => unfold pn_reactor_process_loop_nc
  rw [hp]; simp [hy]

theorem loop_nc_dispatch_eq (fuel : Nat) (prev : EvType) (r : Reactor) (e : Ev)
    (hp : pn_collector_peek r = some e) (hy : r.yield = false) :
    pn_reactor_process_loop_nc (fuel + 1) prev r =
      (pn_reactor_process_loop_nc fuel e.etype (pn_reactor_dispatch_event_nc r e).1).map
        (fun x => (x.1, x.2.1, (pn_reactor_dispatch_event_nc r e).2 ++ x.2.2)) := by
  conv_lhs => unfold pn_reactor_process_loop_nc
  rw [hp]; simp [hy]

theorem loop_nc_inject_eq (fuel : Nat) (prev : EvType) (r : Reactor)
    (hp : pn_collector_peek r = none) (hm : pni_reactor_more r = true)
    (hg : ((prev != EvType.REACTOR_QUIESCED) && (r.previous != EvType.REACTOR_FINAL)) = true) :
    pn_reactor_process_loop_nc (fuel + 1) prev r =
      (pn_reactor_process_loop_nc fuel prev (pn_collector_put r qev)).map
        (fun x => (x.1, x.2.1, Act.putQ qev :: x.2.2)) := by
  conv_lhs => unfold pn_reactor_process_loop_nc
  rw [hp]; simp [hm, hg]

theorem loop_nc_blocked_eq (fuel : Nat) (prev : EvType) (r : Reactor)
    (hp : pn_collector_peek r = none) (hm : pni_reactor_more r = true)
    (hg : ((prev != EvType.REACTOR_QUIESCED) && (r.previous != EvType.REACTOR_FINAL)) = false) :
    pn_reactor_process_loop_nc (fuel + 1) prev r = some (true, r, []) := by
  conv_lhs => unfold pn_reactor_process_loop_nc
  rw [hp]; simp [hm, hg]

theorem loop_nc_terminate_eq (fuel : Nat) (prev : EvType) (r : Reactor) (sid : Nat)
    (hp : pn_collector_peek r = none) (hm : pni_reactor_more r = false)
    (hs : r.selectable = some sid) :
    pn_reactor_process_loop_nc (fuel + 1) prev r =
      pn_reactor_process_loop_nc fuel prev
        { pn_reactor_update (pn_selectable_terminate r sid) sid with selectable := none } := by
  conv_lhs => unfold pn_reactor_process_loop_nc
  rw [hp]; simp [hm, hs]

theorem loop_nc_drained_eq (fuel : Nat) (prev : EvType) (r : Reactor)
    (hp : pn_collector_peek r = none) (hm : pni_reactor_more r = false)
    (hs : r.selectable = none) :
    pn_reactor_process_loop_nc (fuel + 1) prev r = some (false, r, []) := by
  conv_lhs => unfold pn_reactor_process_loop_nc
  rw [hp]; simp [hm, hs]

theorem dispatch_nc_eq (r : Reactor) (e : Ev) (hy : r.yield = false) :
    pn_reactor_dispatch_event_nc r e = pn_reactor_dispatch_event r e := by
  unfold pn_reactor_dispatch_event_nc pn_reactor_dispatch_event
  rw [yield_clear_id r hy]

theorem loop_nc_eq : ∀ (fuel : Nat) (prev : EvType) (r : Reactor),
    pn_reactor_process_loop_nc fuel prev r = pn_reactor_process_loop fuel prev r := by
  intro fuel
  induction fuel with
  | zero => intro prev r; rfl
  | succ n ih =>
    intro prev r
    cases hp : pn_collector_peek r with
    | some e =>
      cases hy : r.yield with
      | true => rw [loop_nc_yield_eq n prev r e hp hy, loop_yield_eq n prev r e hp hy]
      | false =>
        rw [loop_nc_dispatch_eq n prev r e hp hy, loop_dispatch_eq n prev r e hp hy,
          dispatch_nc_eq r e hy, ih]
    | none =>
      cases hm : pni_reactor_more r with
      | true =>
        cases hg : (prev != EvType.REACTOR_QUIESCED) && (r.previous != EvType.REACTOR_FINAL) with
        | true => rw [loop_nc_inject_eq n prev r hp hm hg, loop_inject_eq n prev r hp hm hg, ih]
        | false => rw [loop_nc_blocked_eq n prev r hp hm hg, loop_blocked_eq n prev r hp hm hg]
      | false =>
        cases hs : r.selectable with
        | some sid =>
          rw [loop_nc_terminate_eq n prev r sid hp hm hs,
            loop_terminate_eq n prev r sid hp hm hs, ih]
        | none => rw [loop_nc_drained_eq n prev r hp hm hs, loop_drained_eq n prev r hp hm hs]

/-- C9: whenever an event is present and the yield early return is not
taken, the yield flag is already false, so the subsequent unconditional
clear is a no-op: the variant of pn_reactor_process with that clear removed
is extensionally equal to the original on every reactor state and fuel. -/
theorem c9_yield_clear_redundant (fuel : Nat) (t : Int) (r : Reactor) (prev : EvType) :
    (r.yield = false → { r with yield := false } = r) ∧
    pn_reactor_process_loop_nc fuel prev r = pn_reactor_process_loop fuel prev r ∧
    pn_reactor_process_nc fuel t r = pn_reactor_process fuel t r := by
  refine ⟨yield_clear_id r, loop_nc_eq fuel prev r, ?_⟩
  unfold pn_reactor_process_nc pn_reactor_process
  exact loop_nc_eq fuel EvType.NONE (pn_reactor_mark t r)

theorem c9_yield_clear_redundant_witness :
    ({ pn_reactor_new with yield := false } = pn_reactor_new) ∧
    pn_reactor_process_loop_nc 6 EvType.NONE pn_reactor_new =
      pn_reactor_process_loop 6 EvType.NONE pn_reactor_new ∧
    pn_reactor_process_nc 6 0 pn_reactor_new = pn_reactor_process 6 0 pn_reactor_new := by
  refine ⟨(c9_yield_clear_redundant 6 0 pn_reactor_new EvType.NONE).1 (by decide),
    (c9_yield_clear_redundant 6 0 pn_reactor_new EvType.NONE).2.1,
    (c9_yield_clear_redundant 6 0 pn_reactor_new EvType.NONE).2.2⟩

/-! ### Claim C10: pn_reactor_free -/

/-- C10: pn_reactor_free of a null reactor is a no-op with no effect; on a
non-null reactor it releases the collector, frees the root handler and nulls
that field, and drops the reactor reference, leaving the rest of the state
alone. -/
theorem c10_free_contract (r : Reactor) :
    pn_reactor_free none = (none, []) ∧
    (∃ r', pn_reactor_free (some r) =
        (some r', [FreeAct.releaseCollector, FreeAct.freeHandler, FreeAct.dropRef]) ∧
      r'.released = true ∧ r'.collector = [] ∧ r'.rootHandler = none ∧
      r'.refDropped = true ∧ r'.children = r.children ∧ r'.timer = r.timer ∧
      r'.previous = r.previous ∧ r'.selectable = r.selectable) := by
  refine ⟨rfl, ⟨_, rfl, ?_, ?_, ?_, ?_, ?_, ?_, ?_, ?_⟩⟩ <;>
    simp [pn_collector_release]

/-! ### Claim C4: intra-event dispatch ordering -/

/-- C4: for a single dispatched event the trace is exactly pre-dispatch
hook, resolved handler, global handler, post-dispatch hook, pop, in that
order; the collector is unchanged through the hook and handler stages (the
event, obtained by peek, stays at its head) and only the final pop removes
it; and the loop processes a pending event (with yield clear) through
exactly this step. -/
theorem c4_dispatch_order (fuel : Nat) (prev : EvType) (r : Reactor) (e : Ev) :
    ((pn_reactor_dispatch_event r e).2 =
      [Act.pre e,
       Act.invoke (pn_event_handler
         (evView (pni_reactor_dispatch_pre { r with yield := false } e) e) r.rootHandler) e,
       Act.invokeGlobal e, Act.post e, Act.pop e]) ∧
    ((pni_reactor_dispatch_post
        (pn_global_dispatch (pni_reactor_dispatch_pre { r with yield := false } e) e)
        e).collector = r.collector) ∧
    ((pn_reactor_dispatch_event r e).1.collector = r.collector.tail) ∧
    (pn_collector_peek r = some e → r.yield = false →
      pn_reactor_process_loop (fuel + 1) prev r =
        (pn_reactor_process_loop fuel e.etype (pn_reactor_dispatch_event r e).1).map
          (fun x => (x.1, x.2.1, (pn_reactor_dispatch_event r e).2 ++ x.2.2))) := by
  refine ⟨dispatch_trace r e, ?_, dispatch_collector r e, loop_dispatch_eq fuel prev r e⟩
  unfold pni_reactor_dispatch_post
  rw [glob_collector, pre_collector]

theorem c4_dispatch_order_witness :
    ((pn_reactor_dispatch_event (pn_reactor_start pn_reactor_new)
        ⟨EvType.REACTOR_INIT, Ctx.reactorC⟩).2 =
      [Act.pre ⟨EvType.REACTOR_INIT, Ctx.reactorC⟩,
       Act.invoke (pn_event_handler
         (evView (pni_reactor_dispatch_pre
           { pn_reactor_start pn_reactor_new with yield := false }
           ⟨EvType.REACTOR_INIT, Ctx.reactorC⟩) ⟨EvType.REACTOR_INIT, Ctx.reactorC⟩)
         (pn_reactor_start pn_reactor_new).rootHandler) ⟨EvType.REACTOR_INIT, Ctx.reactorC⟩,
       Act.invokeGlobal ⟨EvType.REACTOR_INIT, Ctx.reactorC⟩,
       Act.post ⟨EvType.REACTOR_INIT, Ctx.reactorC⟩,
       Act.pop ⟨EvType.REACTOR_INIT, Ctx.reactorC⟩]) ∧
    pn_reactor_process_loop 8 EvType.NONE (pn_reactor_start pn_reactor_new) =
      (pn_reactor_process_loop 7 EvType.REACTOR_INIT
        (pn_reactor_dispatch_event (pn_reactor_start pn_reactor_new)
          ⟨EvType.REACTOR_INIT, Ctx.reactorC⟩).1).map
        (fun x => (x.1, x.2.1,
          (pn_reactor_dispatch_event (pn_reactor_start pn_reactor_new)
            ⟨EvType.REACTOR_INIT, Ctx.reactorC⟩).2 ++ x.2.2)) := by
  constructor
  · exact (c4_dispatch_order 7 EvType.NONE (pn_reactor_start pn_reactor_new)
      ⟨EvType.REACTOR_INIT, Ctx.reactorC⟩).1
  · exact (c4_dispatch_order 7 EvType.NONE (pn_reactor_start pn_reactor_new)
      ⟨EvType.REACTOR_INIT, Ctx.reactorC⟩).2.2.2 (by decide) (by decide)

/-! ### Claim C2: handler resolution is most specific first -/

/-- C2: handler resolution walks link, then session, then connection, then
(on task and selectable events) the context entity, then falls back to the
default handler; and during dispatch only the resolved handler and the
global handler are invoked, so the less specific entity handlers are not
invoked when a more specific one exists while the global handler always is. -/
theorem c2_handler_resolution (e : PEvent) (d : Option Nat) (r : Reactor) (ev : Ev) :
    (∀ h, e.elink.bind EntAtt.handler = some h → pn_event_handler e d = some h) ∧
    (∀ h, e.elink.bind EntAtt.handler = none →
      e.esession.bind EntAtt.handler = some h → pn_event_handler e d = some h) ∧
    (∀ h, e.elink.bind EntAtt.handler = none → e.esession.bind EntAtt.handler = none →
      e.econnection.bind EntAtt.handler = some h → pn_event_handler e d = some h) ∧
    (∀ h, e.elink.bind EntAtt.handler = none → e.esession.bind EntAtt.handler = none →
      e.econnection.bind EntAtt.handler = none → e.cls = CId.cid_task →
      e.ctxTask.bind EntAtt.handler = some h → pn_event_handler e d = some h) ∧
    (∀ h, e.elink.bind EntAtt.handler = none → e.esession.bind EntAtt.handler = none →
      e.econnection.bind EntAtt.handler = none → e.cls = CId.cid_selectable →
      e.ctxSel.bind EntAtt.handler = some h → pn_event_handler e d = some h) ∧
    (e.elink.bind EntAtt.handler = none → e.esession.bind EntAtt.handler = none →
      e.econnection.bind EntAtt.handler = none →
      (e.cls = CId.cid_task → e.ctxTask.bind EntAtt.handler = none) →
      (e.cls = CId.cid_selectable → e.ctxSel.bind EntAtt.handler = none) →
      pn_event_handler e d = d) ∧
    ((pn_reactor_dispatch_event r ev).2.filterMap
        (fun a => match a with
          | Act.invoke h e' => some (Act.invoke h e')
          | Act.invokeGlobal e' => some (Act.invokeGlobal e')
          | _ => none) =
      [Act.invoke (pn_event_handler
          (evView (pni_reactor_dispatch_pre { r with yield := false } ev) ev)
          r.rootHandler) ev,
       Act.invokeGlobal ev]) := by
  refine ⟨?_, ?_, ?_, ?_, ?_, ?_, ?_⟩
  · intro h h1
    unfold pn_event_handler
    rw [h1]
  · intro h h1 h2
    unfold pn_event_handler
    rw [h1, h2]
  · intro h h1 h2 h3
    unfold pn_event_handler
    rw [h1, h2, h3]
  · intro h h1 h2 h3 hcls h4
    unfold pn_event_handler
    rw [h1, h2, h3, hcls, h4]
  · intro h h1 h2 h3 hcls h4
    unfold pn_event_handler
    rw [h1, h2, h3, hcls, h4]
  · intro h1 h2 h3 h4 h5
    unfold pn_event_handler
    rw [h1, h2, h3]
    cases hcls : e.cls
    case cid_task => rw [h4 hcls]
    case cid_selectable => rw [h5 hcls]
    all_goals rfl
  · rw [dispatch_trace]
    rfl

/-- A link event whose link carries handler 7 (session and connection also
carry handlers, which must not be chosen). -/
def peL : PEvent := ⟨CId.cid_link, some ⟨some 7⟩, some ⟨some 8⟩, some ⟨some 9⟩, none, none⟩

/-- A session event whose session carries handler 8. -/
def peS : PEvent := ⟨CId.cid_session, none, some ⟨some 8⟩, some ⟨some 9⟩, none, none⟩

/-- A connection event whose connection carries handler 9. -/
def peC : PEvent := ⟨CId.cid_connection, none, none, some ⟨some 9⟩, none, none⟩

/-- A task event whose task carries handler 5. -/
def peT : PEvent := ⟨CId.cid_task, none, none, none, some ⟨some 5⟩, none⟩

/-- A selectable event whose selectable carries handler 6. -/
def peX : PEvent := ⟨CId.cid_selectable, none, none, none, none, some ⟨some 6⟩⟩

/-- A reactor event with no attached handlers anywhere. -/
def peR : PEvent := ⟨CId.cid_reactor, none, none, none, none, none⟩

theorem c2_handler_resolution_witness :
    pn_event_handler peL (some 0) = some 7 ∧
    pn_event_handler peS (some 0) = some 8 ∧
    pn_event_handler peC (some 0) = some 9 ∧
    pn_event_handler peT (some 0) = some 5 ∧
    pn_event_handler peX (some 0) = some 6 ∧
    pn_event_handler peR (some 0) = some 0 ∧
    ((pn_reactor_dispatch_event pn_reactor_new ⟨EvType.REACTOR_INIT, Ctx.reactorC⟩).2.filterMap
        (fun a => match a with
          | Act.invoke h e' => some (Act.invoke h e')
          | Act.invokeGlobal e' => some (Act.invokeGlobal e')
          | _ => none) =
      [Act.invoke (pn_event_handler
          (evView (pni_reactor_dispatch_pre { pn_reactor_new with yield := false }
            ⟨EvType.REACTOR_INIT, Ctx.reactorC⟩) ⟨EvType.REACTOR_INIT, Ctx.reactorC⟩)
          pn_reactor_new.rootHandler) ⟨EvType.REACTOR_INIT, Ctx.reactorC⟩,
       Act.invokeGlobal ⟨EvType.REACTOR_INIT, Ctx.reactorC⟩]) := by
  refine ⟨(c2_handler_resolution peL (some 0) pn_reactor_new
      ⟨EvType.REACTOR_INIT, Ctx.reactorC⟩).1 7 (by decide),
    (c2_handler_resolution peS (some 0) pn_reactor_new
      ⟨EvType.REACTOR_INIT, Ctx.reactorC⟩).2.1 8 (by decide) (by decide),
    (c2_handler_resolution peC (some 0) pn_reactor_new
      ⟨EvType.REACTOR_INIT, Ctx.reactorC⟩).2.2.1 9 (by decide) (by decide) (by decide),
    (c2_handler_resolution peT (some 0) pn_reactor_new
      ⟨EvType.REACTOR_INIT, Ctx.reactorC⟩).2.2.2.1 5 (by decide) (by decide) (by decide)
      (by decide) (by decide),
    (c2_handler_resolution peX (some 0) pn_reactor_new
      ⟨EvType.REACTOR_INIT, Ctx.reactorC⟩).2.2.2.2.1 6 (by decide) (by decide) (by decide)
      (by decide) (by decide),
    (c2_handler_resolution peR (some 0) pn_reactor_new
      ⟨EvType.REACTOR_INIT, Ctx.reactorC⟩).2.2.2.2.2.1 (by decide) (by decide) (by decide)
      (fun hcls => by cases hcls) (fun hcls => by cases hcls),
    (c2_handler_resolution peR (some 0) pn_reactor_new
      ⟨EvType.REACTOR_INIT, Ctx.reactorC⟩).2.2.2.2.2.2⟩


/-! ### Trace and queue bookkeeping lemmas -/

theorem dtr_append (a b : List Act) : dtr (a ++ b) = dtr a ++ dtr b := by
  simp [dtr, List.filterMap_append]

theorem dtr_dispatch (r : Reactor) (e : Ev) :
    dtr (pn_reactor_dispatch_event r e).2 = [e.etype] := by
  rw [dispatch_trace]; rfl

theorem dtr_putQ (e : Ev) (tr : List Act) : dtr (Act.putQ e :: tr) = dtr tr := rfl

theorem countTy_cons (ty t : EvType) (l : List EvType) :
    countTy ty (t :: l) = (if t = ty then 1 else 0) + countTy ty l := rfl

theorem noAdjQ_single (a : EvType) : noAdjQ [a] = true := rfl

theorem noAdjQ_cons_ne (a : EvType) (l : List EvType) (h : a ≠ EvType.REACTOR_QUIESCED) :
    noAdjQ (a :: l) = noAdjQ l := by
  cases l with
  | nil => rfl
  | cons b t => simp [noAdjQ, h]

theorem noAdjQ_snd_ne (a b : EvType) (l : List EvType) (h : b ≠ EvType.REACTOR_QUIESCED) :
    noAdjQ (a :: b :: l) = noAdjQ (b :: l) := by
  simp [noAdjQ, h]

theorem noQEv_tail (es : List Ev) (h : noQEv es = true) : noQEv es.tail = true := by
  cases es with
  | nil => exact h
  | cons a t =>
    simp [noQEv] at h ⊢
    exact h.2

theorem noQEv_head_ne (r : Reactor) (e : Ev) (hp : pn_collector_peek r = some e)
    (h : noQEv r.collector = true) : e.etype ≠ EvType.REACTOR_QUIESCED := by
  have hh := peek_head r e hp
  cases hc : r.collector with
  | nil => rw [hc] at hh; simp at hh
  | cons a t =>
    rw [hc] at hh h
    simp at hh
    simp [noQEv] at h
    rw [← hh]
    exact h.1

theorem noQEv_upd (r : Reactor) (sid : Nat) (h : noQEv r.collector = true) :
    noQEv (pn_reactor_update r sid).collector = true := by
  rcases upd_collector_cases r sid with hc | hc | hc <;> rw [hc]
  · exact h
  · simp [noQEv] at h ⊢
    exact h
  · simp [noQEv] at h ⊢
    exact h

theorem peek_empty (r : Reactor) (h : r.collector = []) : pn_collector_peek r = none := by
  unfold pn_collector_peek
  rw [h]
  split <;> rfl

theorem glob_eq_of_ne (r : Reactor) (e : Ev) (h : e.etype ≠ EvType.SELECTABLE_FINAL) :
    pn_global_dispatch r e = r := by
  obtain ⟨ty, cx⟩ := e
  cases ty <;> cases cx <;> first | rfl | exact absurd rfl h

theorem dispatch_selectables_eq (r : Reactor) (e : Ev)
    (h : e.etype ≠ EvType.SELECTABLE_FINAL) :
    (pn_reactor_dispatch_event r e).1.selectables = r.selectables := by
  unfold pn_reactor_dispatch_event pni_reactor_dispatch_post pn_collector_pop
  simp only []
  rw [glob_eq_of_ne _ _ h]
  exact pre_selectables _ _

theorem more_dispatch_eq (r : Reactor) (e : Ev) (h : e.etype ≠ EvType.SELECTABLE_FINAL) :
    pni_reactor_more (pn_reactor_dispatch_event r e).1 = pni_reactor_more r :=
  more_congr _ _ (dispatch_timer r e) (dispatch_selectables_eq r e h)

/-! ### Claim C5 invariants -/

/-- After the loop injects a REACTOR_QUIESCED into an empty queue, the rest
of the call dispatches at most that one event: with a queue holding exactly
the injected quiesce event, more() true and the call-local previous not
QUIESCED, the remaining trace dispatches nothing (yield pending) or exactly
the one QUIESCED. -/
theorem loop_after_inject : ∀ (fuel : Nat) (prev : EvType) (r : Reactor) (b : Bool)
    (r' : Reactor) (tr : List Act),
    pn_reactor_process_loop fuel prev r = some (b, r', tr) →
    r.collector = [qev] → r.released = false → pni_reactor_more r = true →
    (dtr tr = [] ∨ dtr tr = [EvType.REACTOR_QUIESCED]) := by
  intro fuel
  match fuel with
  | 0 =>
    intro prev r b r' tr h _ _ _
    rw [loop_zero] at h
    exact absurd h (by simp)
  | Nat.succ n =>
    intro prev r b r' tr h hcol hrel hm
    have hp : pn_collector_peek r = some qev := by
      unfold pn_collector_peek
      rw [hrel, hcol]
      rfl
    cases hy : r.yield with
    | true =>
      rw [loop_yield_eq n prev r qev hp hy] at h
      simp only [Option.some.injEq, Prod.mk.injEq] at h
      obtain ⟨_, _, htr⟩ := h
      left
      rw [← htr]
      rfl
    | false =>
      rw [loop_dispatch_eq n prev r qev hp hy] at h
      match n, h with
      | 0, h =>
        rw [loop_zero] at h
        exact absurd h (by simp)
      | Nat.succ m, h =>
        have hd : (pn_reactor_dispatch_event r qev).1.collector = [] := by
          rw [dispatch_collector, hcol]
          rfl
        have hdp : pn_collector_peek (pn_reactor_dispatch_event r qev).1 = none :=
          peek_empty _ hd
        have hdm : pni_reactor_more (pn_reactor_dispatch_event r qev).1 = true := by
          rw [more_dispatch_eq r qev (by intro hq; cases hq)]
          exact hm
        have hguard :
            ((qev.etype != EvType.REACTOR_QUIESCED) &&
              ((pn_reactor_dispatch_event r qev).1.previous != EvType.REACTOR_FINAL)) = false := by
          rfl
        rw [loop_blocked_eq m qev.etype (pn_reactor_dispatch_event r qev).1 hdp hdm hguard] at h
        simp only [Option.map_some', Option.some.injEq, Prod.mk.injEq] at h
        obtain ⟨_, _, htr⟩ := h
        right
        rw [← htr, dtr_append, dtr_dispatch]
        rfl

/-- Within one loop run from a quiesce-free queue, the dispatched stream
prefixed with the call-local previous has no two adjacent REACTOR_QUIESCED
entries, and at most one REACTOR_QUIESCED is dispatched. -/
theorem loop_noAdjQ : ∀ (fuel : Nat) (prev : EvType) (r : Reactor) (b : Bool)
    (r' : Reactor) (tr : List Act),
    pn_reactor_process_loop fuel prev r = some (b, r', tr) →
    noQEv r.collector = true →
    (noAdjQ (prev :: dtr tr) = true ∧ countTy EvType.REACTOR_QUIESCED (dtr tr) ≤ 1) := by
  intro fuel
  induction fuel with
  | zero =>
    intro prev r b r' tr h _
    rw [loop_zero] at h
    exact absurd h (by simp)
  | succ n ih =>
    intro prev r b r' tr h hq
    cases hp : pn_collector_peek r with
    | some e =>
      cases hy : r.yield with
      | true =>
        rw [loop_yield_eq n prev r e hp hy] at h
        simp only [Option.some.injEq, Prod.mk.injEq] at h
        obtain ⟨_, _, htr⟩ := h
        rw [← htr]
        exact ⟨noAdjQ_single prev, by simp [dtr, countTy]⟩
      | false =>
        rw [loop_dispatch_eq n prev r e hp hy] at h
        cases hl : pn_reactor_process_loop n e.etype (pn_reactor_dispatch_event r e).1 with
        | none => rw [hl] at h; simp at h
        | some x =>
          obtain ⟨b0, r0, tr0⟩ := x
          rw [hl] at h
          simp only [Option.map_some', Option.some.injEq, Prod.mk.injEq] at h
          obtain ⟨_, _, htr⟩ := h
          have hne := noQEv_head_ne r e hp hq
          have hq' : noQEv (pn_reactor_dispatch_event r e).1.collector = true := by
            rw [dispatch_collector]
            exact noQEv_tail _ hq
          obtain ⟨ih1, ih2⟩ := ih e.etype _ _ _ _ hl hq'
          rw [← htr, dtr_append, dtr_dispatch]
          constructor
          · rw [List.singleton_append, noAdjQ_snd_ne prev e.etype _ hne]
            exact ih1
          · rw [List.singleton_append, countTy_cons]
            simp [hne]
            exact ih2
    | none =>
      cases hm : pni_reactor_more r with
      | true =>
        cases hg : (prev != EvType.REACTOR_QUIESCED) && (r.previous != EvType.REACTOR_FINAL) with
        | true =>
          rw [loop_inject_eq n prev r hp hm hg] at h
          cases hl : pn_reactor_process_loop n prev (pn_collector_put r qev) with
          | none => rw [hl] at h; simp at h
          | some x =>
            obtain ⟨b0, r0, tr0⟩ := x
            rw [hl] at h
            simp only [Option.map_some', Option.some.injEq, Prod.mk.injEq] at h
            obtain ⟨_, _, htr⟩ := h
            rw [← htr, dtr_putQ]
            cases hrel : r.released with
            | true =>
              rw [put_of_released r qev hrel] at hl
              exact ih prev _ _ _ _ hl hq
            | false =>
              have hcol : r.collector = [] := by
                rcases peek_none_cases r hp with h' | h'
                · rw [h'] at hrel; cases hrel
                · exact h'
              have hput : (pn_collector_put r qev).collector = [qev] := by
                rw [put_collector r qev hrel, hcol]
                rfl
              have hprevne : (prev != EvType.REACTOR_QUIESCED) = true :=
                (Bool.and_eq_true _ _ |>.mp hg).1
              rcases loop_after_inject n prev _ _ _ _ hl hput
                (by rw [put_released]; exact hrel) (by rw [more_put]; exact hm) with h0 | h1
              · rw [h0]
                exact ⟨noAdjQ_single prev, by simp [countTy]⟩
              · rw [h1]
                refine ⟨?_, by simp [countTy]⟩
                have : (prev == EvType.REACTOR_QUIESCED) = false := by
                  simpa [bne] using hprevne
                simp [noAdjQ, this]
        | false =>
          rw [loop_blocked_eq n prev r hp hm hg] at h
          simp only [Option.some.injEq, Prod.mk.injEq] at h
          obtain ⟨_, _, htr⟩ := h
          rw [← htr]
          exact ⟨noAdjQ_single prev, by simp [dtr, countTy]⟩
      | false =>
        cases hs : r.selectable with
        | some sid =>
          rw [loop_terminate_eq n prev r sid hp hm hs] at h
          refine ih prev _ _ _ _ h ?_
          show noQEv (pn_reactor_update (pn_selectable_terminate r sid) sid).collector = true
          refine noQEv_upd _ _ ?_
          rw [term_collector]
          exact hq
        | none =>
          rw [loop_drained_eq n prev r hp hm hs] at h
          simp only [Option.some.injEq, Prod.mk.injEq] at h
          obtain ⟨_, _, htr⟩ := h
          rw [← htr]
          exact ⟨noAdjQ_single prev, by simp [dtr, countTy]⟩

/-- Once the persistent previous records REACTOR_FINAL with the queue
drained, or more() is false, a loop run over a quiesce-free queue dispatches
no REACTOR_QUIESCED at all. -/
theorem loop_no_quiesce : ∀ (fuel : Nat) (prev : EvType) (r : Reactor) (b : Bool)
    (r' : Reactor) (tr : List Act),
    pn_reactor_process_loop fuel prev r = some (b, r', tr) →
    noQEv r.collector = true →
    ((r.previous = EvType.REACTOR_FINAL ∧ r.collector = []) ∨ pni_reactor_more r = false) →
    countTy EvType.REACTOR_QUIESCED (dtr tr) = 0 := by
  intro fuel
  induction fuel with
  | zero =>
    intro prev r b r' tr h _ _
    rw [loop_zero] at h
    exact absurd h (by simp)
  | succ n ih =>
    intro prev r b r' tr h hq hinv
    cases hp : pn_collector_peek r with
    | some e =>
      have hmr : pni_reactor_more r = false := by
        rcases hinv with ⟨_, hcol⟩ | hmr
        · exact absurd hcol (peek_ne_nil r e hp)
        · exact hmr
      cases hy : r.yield with
      | true =>
        rw [loop_yield_eq n prev r e hp hy] at h
        simp only [Option.some.injEq, Prod.mk.injEq] at h
        obtain ⟨_, _, htr⟩ := h
        rw [← htr]
        rfl
      | false =>
        rw [loop_dispatch_eq n prev r e hp hy] at h
        cases hl : pn_reactor_process_loop n e.etype (pn_reactor_dispatch_event r e).1 with
        | none => rw [hl] at h; simp at h
        | some x =>
          obtain ⟨b0, r0, tr0⟩ := x
          rw [hl] at h
          simp only [Option.map_some', Option.some.injEq, Prod.mk.injEq] at h
          obtain ⟨_, _, htr⟩ := h
          have hne := noQEv_head_ne r e hp hq
          have hq' : noQEv (pn_reactor_dispatch_event r e).1.collector = true := by
            rw [dispatch_collector]
            exact noQEv_tail _ hq
          have hm' : pni_reactor_more (pn_reactor_dispatch_event r e).1 = false := by
            cases hmd : pni_reactor_more (pn_reactor_dispatch_event r e).1 with
            | false => rfl
            | true => rw [more_dispatch r e hmd] at hmr; cases hmr
          have ih0 := ih e.etype _ _ _ _ hl hq' (Or.inr hm')
          rw [← htr, dtr_append, dtr_dispatch, List.singleton_append, countTy_cons]
          simp [hne]
          exact ih0
    | none =>
      cases hm : pni_reactor_more r with
      | true =>
        have hfin : r.previous = EvType.REACTOR_FINAL := by
          rcases hinv with ⟨hf, _⟩ | hmr
          · exact hf
          · rw [hmr] at hm; cases hm
        have hg : ((prev != EvType.REACTOR_QUIESCED) &&
            (r.previous != EvType.REACTOR_FINAL)) = false := by
          rw [hfin]
          simp
        rw [loop_blocked_eq n prev r hp hm hg] at h
        simp only [Option.some.injEq, Prod.mk.injEq] at h
        obtain ⟨_, _, htr⟩ := h
        rw [← htr]
        rfl
      | false =>
        cases hs : r.selectable with
        | some sid =>
          rw [loop_terminate_eq n prev r sid hp hm hs] at h
          refine ih prev _ _ _ _ h ?_ (Or.inr ?_)
          · show noQEv (pn_reactor_update (pn_selectable_terminate r sid) sid).collector = true
            refine noQEv_upd _ _ ?_
            rw [term_collector]
            exact hq
          · show pni_reactor_more
              { pn_reactor_update (pn_selectable_terminate r sid) sid with selectable := none } =
              false
            have : pni_reactor_more
                { pn_reactor_update (pn_selectable_terminate r sid) sid with
                    selectable := none } =
                pni_reactor_more r := by
              refine more_congr _ _ ?_ ?_
              · show (pn_reactor_update (pn_selectable_terminate r sid) sid).timer = r.timer
                rw [upd_timer, term_timer]
              · show (pn_reactor_update (pn_selectable_terminate r sid) sid).selectables =
                  r.selectables
                rw [upd_selectables, term_selectables]
            rw [this]
            exact hm
        | none =>
          rw [loop_drained_eq n prev r hp hm hs] at h
          simp only [Option.some.injEq, Prod.mk.injEq] at h
          obtain ⟨_, _, htr⟩ := h
          rw [← htr]
          rfl


/-! ### Claim C5: quiesce temporal properties -/

/-- A started reactor with one scheduled task: process() never ticks the
timer itself, so every call quiesces. -/
def c5state : Reactor := pn_reactor_schedule (pn_reactor_start pn_reactor_new) 1000 none

/-- C5 counterexample: across two consecutive process() calls on a reactor
with a pending task, the dispatched stream ends with two adjacent
REACTOR_QUIESCED events — the guard uses a call-local previous, so the
across-calls claim fails. -/
theorem c5_counterexample :
    ((pn_reactor_process 40 0 c5state).bind
      (fun p1 => (pn_reactor_process 40 0 p1.2.1).map
        (fun p2 => (noAdjQ (dtr p1.2.2 ++ dtr p2.2.2), dtr p1.2.2 ++ dtr p2.2.2)))) =
      some (false,
        [EvType.REACTOR_INIT, EvType.SELECTABLE_INIT, EvType.SELECTABLE_UPDATED,
         EvType.SELECTABLE_UPDATED, EvType.REACTOR_QUIESCED, EvType.REACTOR_QUIESCED]) := by
  decide

/-- C5 (amended): within a single process() call over a quiesce-free queue,
no two dispatched REACTOR_QUIESCED events are adjacent and at most one is
dispatched; and a call entered with the persistent previous REACTOR_FINAL
and an empty queue dispatches no REACTOR_QUIESCED at all.  Across separate
calls adjacent REACTOR_QUIESCED events do occur. -/
theorem c5_quiesce_amended (fuel : Nat) (t : Int) (r : Reactor) (b : Bool) (r' : Reactor)
    (tr : List Act) :
    (pn_reactor_process fuel t r = some (b, r', tr) → noQEv r.collector = true →
      noAdjQ (dtr tr) = true ∧ countTy EvType.REACTOR_QUIESCED (dtr tr) ≤ 1) ∧
    (pn_reactor_process fuel t r = some (b, r', tr) → noQEv r.collector = true →
      r.previous = EvType.REACTOR_FINAL → r.collector = [] →
      countTy EvType.REACTOR_QUIESCED (dtr tr) = 0) := by
  constructor
  · intro h hq
    obtain ⟨h1, h2⟩ := loop_noAdjQ fuel EvType.NONE (pn_reactor_mark t r) b r' tr h hq
    refine ⟨?_, h2⟩
    rw [noAdjQ_cons_ne EvType.NONE _ (by intro hh; cases hh)] at h1
    exact h1
  · intro h hq hf hc
    exact loop_no_quiesce fuel EvType.NONE (pn_reactor_mark t r) b r' tr h hq
      (Or.inl ⟨hf, hc⟩)

/-- The state after the first process() call on c5state. -/
def c5r1 : Reactor := ((pn_reactor_process 40 0 c5state).map (fun x => x.2.1)).getD pn_reactor_new

/-- The trace of the first process() call on c5state. -/
def c5t1 : List Act := ((pn_reactor_process 40 0 c5state).map (fun x => x.2.2)).getD []

/-- A reactor that already dispatched REACTOR_FINAL (drained queue) but
still has a task pending. -/
def c5fin : Reactor := { pn_reactor_new with previous := EvType.REACTOR_FINAL, timer := [3] }

theorem c5_quiesce_amended_witness :
    (noAdjQ (dtr c5t1) = true ∧ countTy EvType.REACTOR_QUIESCED (dtr c5t1) ≤ 1) ∧
    countTy EvType.REACTOR_QUIESCED (dtr ([] : List Act)) = 0 := by
  constructor
  · exact (c5_quiesce_amended 40 0 c5state true c5r1 c5t1).1 (by decide) (by decide)
  · exact (c5_quiesce_amended 5 0 c5fin true c5fin []).2 (by decide) (by decide)
      (by decide) (by decide)


/-! ### Claim C3: selectable event lifecycle -/

/-- Client operations on a registered selectable: notify the reactor via
update, or mark the selectable terminal. -/
inductive SOp where
  | update
  | terminate
deriving DecidableEq, Repr

/-- Apply one selectable operation through the reactor API. -/
def applySOp (r : Reactor) (sid : Nat) : SOp → Reactor
  | SOp.update => pn_reactor_update r sid
  | SOp.terminate => pn_selectable_terminate r sid

/-- Apply a sequence of selectable operations. -/
def applySOps (r : Reactor) (sid : Nat) : List SOp → Reactor
  | [] => r
  | o :: os => applySOps (applySOp r sid o) sid os

/-- The event types published for the given selectable, in order. -/
def selEvents (l : List Ev) (sid : Nat) : List EvType :=
  l.filterMap (fun e => match e.ctx with
    | Ctx.selC j => if j = sid then some e.etype else none
    | _ => none)

/-- The shape INIT · UPDATED* · FINAL?. -/
def goodSeq (l : List EvType) : Prop :=
  ∃ (n : Nat) (f : Bool), l = EvType.SELECTABLE_INIT ::
    (List.replicate n EvType.SELECTABLE_UPDATED ++
      (if f then [EvType.SELECTABLE_FINAL] else []))

/-- The invariant tying the TERMINATED marker to the published sequence. -/
def selInv (r : Reactor) (sid : Nat) : Prop :=
  ∃ c, childFind r.children sid = some c ∧
    ((c.terminated = false ∧ ∃ n, selEvents r.log sid =
        EvType.SELECTABLE_INIT :: List.replicate n EvType.SELECTABLE_UPDATED) ∨
     (c.terminated = true ∧ ∃ (n : Nat) (f : Bool), selEvents r.log sid =
        EvType.SELECTABLE_INIT ::
          (List.replicate n EvType.SELECTABLE_UPDATED ++
            (if f then [EvType.SELECTABLE_FINAL] else []))))

theorem childFind_sid : ∀ (cs : List SelSt) (sid : Nat) (c : SelSt),
    childFind cs sid = some c → c.sid = sid := by
  intro cs
  induction cs with
  | nil => intro sid c h; cases h
  | cons a t ih =>
    intro sid c h
    unfold childFind at h
    by_cases ha : a.sid = sid
    · rw [if_pos ha] at h
      cases h
      exact ha
    · rw [if_neg ha] at h
      exact ih sid c h

theorem childFind_childSet_self : ∀ (cs : List SelSt) (sid : Nat) (c c' : SelSt),
    childFind cs sid = some c → c'.sid = sid →
    childFind (childSet cs sid c') sid = some c' := by
  intro cs
  induction cs with
  | nil => intro sid c c' h _; cases h
  | cons a t ih =>
    intro sid c c' h hc'
    unfold childSet
    by_cases ha : a.sid = sid
    · rw [if_pos ha]
      unfold childFind
      rw [if_pos hc']
    · rw [if_neg ha]
      unfold childFind
      rw [if_neg ha]
      unfold childFind at h
      rw [if_neg ha] at h
      exact ih sid c c' h hc'

theorem selEvents_append (l1 l2 : List Ev) (sid : Nat) :
    selEvents (l1 ++ l2) sid = selEvents l1 sid ++ selEvents l2 sid := by
  simp [selEvents, List.filterMap_append]

theorem selEvents_self (ty : EvType) (sid : Nat) :
    selEvents [⟨ty, Ctx.selC sid⟩] sid = [ty] := by
  simp [selEvents]

theorem upd_eq_of_find (r : Reactor) (sid : Nat) (c : SelSt)
    (hfind : childFind r.children sid = some c) :
    pn_reactor_update r sid =
      (if c.terminated then r
       else if c.terminal then
         pn_collector_put
           { r with children := childSet r.children sid { c with terminated := true } }
           ⟨EvType.SELECTABLE_FINAL, Ctx.selC sid⟩
       else pn_collector_put r ⟨EvType.SELECTABLE_UPDATED, Ctx.selC sid⟩) := by
  unfold pn_reactor_update
  rw [hfind]

theorem term_eq_of_find (r : Reactor) (sid : Nat) (c : SelSt)
    (hfind : childFind r.children sid = some c) :
    pn_selectable_terminate r sid =
      { r with children := childSet r.children sid { c with terminal := true } } := by
  unfold pn_selectable_terminate
  rw [hfind]

theorem selInv_step (r : Reactor) (sid : Nat) (o : SOp) (h : selInv r sid) :
    selInv (applySOp r sid o) sid := by
  obtain ⟨c, hfind, hdisj⟩ := h
  have hsid : c.sid = sid := childFind_sid _ _ _ hfind
  cases o with
  | update =>
    show selInv (pn_reactor_update r sid) sid
    rw [upd_eq_of_find r sid c hfind]
    rcases hdisj with ⟨hterm, n, hproj⟩ | ⟨hterm, n, f, hproj⟩
    · rw [hterm]
      simp only [Bool.false_eq_true, if_false]
      by_cases hterminal : c.terminal = true
      · rw [if_pos hterminal]
        refine ⟨{ c with terminated := true }, ?_, Or.inr ⟨rfl, ?_⟩⟩
        · rw [put_children]
          exact childFind_childSet_self r.children sid c { c with terminated := true } hfind hsid
        · cases hrel : r.released with
          | true =>
            rw [put_of_released _ _ (by exact rfl)]
            refine ⟨n, false, ?_⟩
            simpa using hproj
          | false =>
            refine ⟨n, true, ?_⟩
            rw [put_log _ _ (by exact rfl)]
            show selEvents (r.log ++ [⟨EvType.SELECTABLE_FINAL, Ctx.selC sid⟩]) sid = _
            rw [selEvents_append, hproj, selEvents_self]
            simp
      · rw [if_neg hterminal]
        refine ⟨c, ?_, Or.inl ⟨hterm, ?_⟩⟩
        · rw [put_children]
          exact hfind
        · cases hrel : r.released with
          | true =>
            rw [put_of_released r _ hrel]
            exact ⟨n, hproj⟩
          | false =>
            refine ⟨n + 1, ?_⟩
            rw [put_log r _ hrel, selEvents_append, hproj, selEvents_self,
              List.replicate_succ']
            rfl
    · rw [hterm]
      simp only [if_true]
      exact ⟨c, hfind, Or.inr ⟨hterm, n, f, hproj⟩⟩
  | terminate =>
    show selInv (pn_selectable_terminate r sid) sid
    rw [term_eq_of_find r sid c hfind]
    refine ⟨{ c with terminal := true }, ?_, ?_⟩
    · show childFind (childSet r.children sid { c with terminal := true }) sid = _
      exact childFind_childSet_self _ _ _ _ hfind hsid
    · rcases hdisj with ⟨hterm, n, hproj⟩ | ⟨hterm, n, f, hproj⟩
      · exact Or.inl ⟨hterm, n, hproj⟩
      · exact Or.inr ⟨hterm, n, f, hproj⟩

theorem selInv_run : ∀ (ops : List SOp) (r : Reactor) (sid : Nat),
    selInv r sid → selInv (applySOps r sid ops) sid := by
  intro ops
  induction ops with
  | nil => intro r sid h; exact h
  | cons o os ih =>
    intro r sid h
    exact ih _ _ (selInv_step r sid o h)

/-- C3: registration of a selectable publishes exactly one SELECTABLE_INIT;
update() on an unterminated non-terminal selectable publishes
SELECTABLE_UPDATED; the first update() on a terminal selectable sets the
TERMINATED marker and publishes SELECTABLE_FINAL; update() on a marked
selectable publishes nothing; hence for the selectable registered on a
fresh reactor, after any sequence of update/terminate operations the
published stream for it matches INIT · UPDATED* · FINAL?. -/
theorem c3_selectable_lifecycle (ops : List SOp) (r : Reactor) (sid : Nat) (c : SelSt) :
    (selEvents (pn_reactor_selectable pn_reactor_new).1.log
        (pn_reactor_selectable pn_reactor_new).2 = [EvType.SELECTABLE_INIT]) ∧
    (childFind r.children sid = some c → c.terminated = false → c.terminal = false →
      pn_reactor_update r sid =
        pn_collector_put r ⟨EvType.SELECTABLE_UPDATED, Ctx.selC sid⟩) ∧
    (childFind r.children sid = some c → c.terminated = false → c.terminal = true →
      pn_reactor_update r sid =
        pn_collector_put
          { r with children := childSet r.children sid { c with terminated := true } }
          ⟨EvType.SELECTABLE_FINAL, Ctx.selC sid⟩) ∧
    (childFind r.children sid = some c → c.terminated = true →
      pn_reactor_update r sid = r) ∧
    goodSeq (selEvents
      (applySOps (pn_reactor_selectable pn_reactor_new).1
        (pn_reactor_selectable pn_reactor_new).2 ops).log
      (pn_reactor_selectable pn_reactor_new).2) := by
  refine ⟨rfl, ?_, ?_, ?_, ?_⟩
  · intro hfind ht1 ht2
    rw [upd_eq_of_find r sid c hfind, ht1, ht2]
    simp
  · intro hfind ht1 ht2
    rw [upd_eq_of_find r sid c hfind, ht1, ht2]
    simp
  · intro hfind ht1
    rw [upd_eq_of_find r sid c hfind, ht1]
    simp
  · have hbase : selInv (pn_reactor_selectable pn_reactor_new).1
        (pn_reactor_selectable pn_reactor_new).2 :=
      ⟨⟨0, false, false, 0, none⟩, rfl, Or.inl ⟨rfl, 0, rfl⟩⟩
    obtain ⟨c', _, hdisj⟩ := selInv_run ops _ _ hbase
    rcases hdisj with ⟨_, n, hproj⟩ | ⟨_, n, f, hproj⟩
    · refine ⟨n, false, ?_⟩
      simpa using hproj
    · exact ⟨n, f, hproj⟩

/-- The reactor carrying the single registered selectable of the witness. -/
def c3r1 : Reactor := (pn_reactor_selectable pn_reactor_new).1

/-- The same reactor with its selectable marked terminal. -/
def c3r2 : Reactor := pn_selectable_terminate c3r1 0

/-- The same reactor after the terminal selectable was updated (marked). -/
def c3r3 : Reactor := pn_reactor_update c3r2 0

theorem c3_selectable_lifecycle_witness :
    (selEvents (pn_reactor_selectable pn_reactor_new).1.log
        (pn_reactor_selectable pn_reactor_new).2 = [EvType.SELECTABLE_INIT]) ∧
    (pn_reactor_update c3r1 0 =
      pn_collector_put c3r1 ⟨EvType.SELECTABLE_UPDATED, Ctx.selC 0⟩) ∧
    (pn_reactor_update c3r2 0 =
      pn_collector_put
        { c3r2 with children := childSet c3r2.children 0 ⟨0, true, true, 0, none⟩ }
        ⟨EvType.SELECTABLE_FINAL, Ctx.selC 0⟩) ∧
    (pn_reactor_update c3r3 0 = c3r3) ∧
    goodSeq (selEvents
      (applySOps (pn_reactor_selectable pn_reactor_new).1
        (pn_reactor_selectable pn_reactor_new).2
        [SOp.update, SOp.update, SOp.terminate, SOp.update, SOp.update]).log
      (pn_reactor_selectable pn_reactor_new).2) := by
  refine ⟨(c3_selectable_lifecycle [] c3r1 0 ⟨0, false, false, 0, none⟩).1,
    (c3_selectable_lifecycle [] c3r1 0 ⟨0, false, false, 0, none⟩).2.1
      (by decide) (by decide) (by decide),
    (c3_selectable_lifecycle [] c3r2 0 ⟨0, true, false, 0, none⟩).2.2.1
      (by decide) (by decide) (by decide),
    (c3_selectable_lifecycle [] c3r3 0 ⟨0, true, true, 0, none⟩).2.2.2.1
      (by decide) (by decide),
    (c3_selectable_lifecycle [SOp.update, SOp.update, SOp.terminate, SOp.update, SOp.update]
      c3r1 0 ⟨0, false, false, 0, none⟩).2.2.2.2⟩


/-! ### Claim C7 support lemmas -/

theorem peek_released_none (r : Reactor) (h : r.released = true) :
    pn_collector_peek r = none := by
  simp [pn_collector_peek, h]

theorem countFq_cons_zero (x : Ev) (q : List Ev) (h : countFq (x :: q) = 0) :
    (x.etype == EvType.REACTOR_FINAL) = false ∧ countFq q = 0 := by
  unfold countFq at h ⊢
  rw [List.filter_cons] at h
  cases hx : (x.etype == EvType.REACTOR_FINAL) with
  | true => rw [hx] at h; simp at h
  | false => rw [hx, if_neg Bool.false_ne_true] at h; exact ⟨rfl, h⟩

/-- Terminating a registered selectable and then updating it either
publishes nothing (unknown id, already marked, or released collector) or
publishes exactly one SELECTABLE_FINAL. -/
theorem upd_term_collector (r : Reactor) (sid : Nat) :
    (pn_reactor_update (pn_selectable_terminate r sid) sid).collector = r.collector ∨
    (pn_reactor_update (pn_selectable_terminate r sid) sid).collector =
      r.collector ++ [⟨EvType.SELECTABLE_FINAL, Ctx.selC sid⟩] := by
  cases hf : childFind r.children sid with
  | none =>
    left
    unfold pn_selectable_terminate
    rw [hf]
    unfold pn_reactor_update
    rw [hf]
  | some c =>
    have hsid : c.sid = sid := childFind_sid r.children sid c hf
    rw [term_eq_of_find r sid c hf]
    have hf2 : childFind
        ({ r with children := childSet r.children sid { c with terminal := true } }).children
        sid = some { c with terminal := true } :=
      childFind_childSet_self r.children sid c { c with terminal := true } hf hsid
    rw [upd_eq_of_find
      { r with children := childSet r.children sid { c with terminal := true } }
      sid { c with terminal := true } hf2]
    by_cases hterm : ({ c with terminal := true } : SelSt).terminated = true
    · left
      rw [if_pos hterm]
    · rw [if_neg hterm,
        if_pos (show ({ c with terminal := true } : SelSt).terminal = true from rfl)]
      by_cases hrel : r.released = true
      · left
        simp [pn_collector_put, hrel]
      · have hrelf : r.released = false := by
          revert hrel
          cases r.released <;> simp
        right
        simp [pn_collector_put, hrelf]

/-- The invariant carried through the process() call made by stop(): the
queue ends with the REACTOR_FINAL just put (and holds no other), or
REACTOR_FINAL was already dispatched with the queue drained, or only the
timer selectable's SELECTABLE_FINAL remains past more(), or the reactor is
fully drained, or the collector was already released.  k counts the
REACTOR_FINAL dispatches still to come. -/
def stopInv (prev : EvType) (r : Reactor) (k : Nat) : Prop :=
  (r.released = true ∧ prev ≠ EvType.REACTOR_QUIESCED ∧ k = 0) ∨
  (r.released = false ∧ (∃ q, r.collector = q ++ [fevt] ∧ countFq q = 0) ∧ k = 1) ∨
  (r.collector = [] ∧ r.previous = EvType.REACTOR_FINAL ∧ k = 0) ∨
  ((∃ sid, r.collector = [⟨EvType.SELECTABLE_FINAL, Ctx.selC sid⟩]) ∧
    pni_reactor_more r = false ∧ r.selectable = none ∧ k = 0) ∨
  (r.collector = [] ∧ pni_reactor_more r = false ∧ r.selectable = none ∧ k = 0)

theorem loop_stopInv : ∀ (fuel : Nat) (prev : EvType) (r : Reactor) (b : Bool)
    (r' : Reactor) (tr : List Act) (k : Nat),
    pn_reactor_process_loop fuel prev r = some (b, r', tr) →
    r.yield = false → stopInv prev r k →
    (((b = true ∧ pni_reactor_more r' = true ∧ r'.previous = EvType.REACTOR_FINAL) ∨
      (b = false ∧ pni_reactor_more r' = false ∧ r'.selectable = none)) ∧
     countTy EvType.REACTOR_FINAL (dtr tr) = k) := by
  intro fuel
  induction fuel with
  | zero =>
    intro prev r b r' tr k h _ _
    rw [loop_zero] at h
    exact absurd h (by simp)
  | succ n ih =>
    intro prev r b r' tr k h hy hinv
    rcases hinv with ⟨hrel, hprevq, hk⟩ | ⟨hrel, ⟨q, hcol, hqz⟩, hk⟩ | ⟨hcol, hprev, hk⟩ |
      ⟨⟨sid, hcol⟩, hmr, hsel, hk⟩ | ⟨hcol, hmr, hsel, hk⟩
    · -- released collector: nothing is ever dispatched
      subst hk
      have hp : pn_collector_peek r = none := peek_released_none r hrel
      cases hm : pni_reactor_more r with
      | true =>
        cases hg : (prev != EvType.REACTOR_QUIESCED) && (r.previous != EvType.REACTOR_FINAL) with
        | true =>
          rw [loop_inject_eq n prev r hp hm hg, put_of_released r qev hrel] at h
          cases hl : pn_reactor_process_loop n prev r with
          | none => rw [hl] at h; simp at h
          | some x =>
            obtain ⟨b0, r0, tr0⟩ := x
            rw [hl] at h
            simp only [Option.map_some', Option.some.injEq, Prod.mk.injEq] at h
            obtain ⟨hb, hr, htr⟩ := h
            subst hb hr
            obtain ⟨hout, hcount⟩ := ih prev r _ _ _ 0 hl hy (Or.inl ⟨hrel, hprevq, rfl⟩)
            rw [← htr, dtr_putQ]
            exact ⟨hout, hcount⟩
        | false =>
          rw [loop_blocked_eq n prev r hp hm hg] at h
          simp only [Option.some.injEq, Prod.mk.injEq] at h
          obtain ⟨hb, hr, htr⟩ := h
          subst hb hr htr
          have hpq : (prev != EvType.REACTOR_QUIESCED) = true := by
            simp [bne]
            exact hprevq
          have hpf : r.previous = EvType.REACTOR_FINAL := by
            rw [hpq, Bool.true_and] at hg
            simpa [bne] using hg
          exact ⟨Or.inl ⟨rfl, hm, hpf⟩, rfl⟩
      | false =>
        cases hs : r.selectable with
        | some sid =>
          rw [loop_terminate_eq n prev r sid hp hm hs] at h
          have hy2 : ({ pn_reactor_update (pn_selectable_terminate r sid) sid with
              selectable := none } : Reactor).yield = false := by
            show (pn_reactor_update (pn_selectable_terminate r sid) sid).yield = false
            rw [upd_yield, term_yield]
            exact hy
          have hrel2 : ({ pn_reactor_update (pn_selectable_terminate r sid) sid with
              selectable := none } : Reactor).released = true := by
            show (pn_reactor_update (pn_selectable_terminate r sid) sid).released = true
            rw [upd_released, term_released]
            exact hrel
          exact ih prev _ b r' tr 0 h hy2 (Or.inl ⟨hrel2, hprevq, rfl⟩)
        | none =>
          rw [loop_drained_eq n prev r hp hm hs] at h
          simp only [Option.some.injEq, Prod.mk.injEq] at h
          obtain ⟨hb, hr, htr⟩ := h
          subst hb hr htr
          exact ⟨Or.inr ⟨rfl, hm, hs⟩, rfl⟩
    · -- REACTOR_FINAL pending at the end of the queue
      subst hk
      cases hq0 : q with
      | nil =>
        have hcol' : r.collector = [fevt] := by rw [hcol, hq0]; rfl
        have hp : pn_collector_peek r = some fevt := by
          simp [pn_collector_peek, hrel, hcol']
        rw [loop_dispatch_eq n prev r fevt hp hy] at h
        cases hl : pn_reactor_process_loop n fevt.etype (pn_reactor_dispatch_event r fevt).1 with
        | none => rw [hl] at h; simp at h
        | some x =>
          obtain ⟨b0, r0, tr0⟩ := x
          rw [hl] at h
          simp only [Option.map_some', Option.some.injEq, Prod.mk.injEq] at h
          obtain ⟨hb, hr, htr⟩ := h
          subst hb hr
          have hdcol : (pn_reactor_dispatch_event r fevt).1.collector = [] := by
            rw [dispatch_collector, hcol']
            rfl
          have hdprev : (pn_reactor_dispatch_event r fevt).1.previous =
              EvType.REACTOR_FINAL := dispatch_previous r fevt
          obtain ⟨hout, hcount⟩ := ih fevt.etype _ _ _ _ 0 hl (dispatch_yield r fevt)
            (Or.inr (Or.inr (Or.inl ⟨hdcol, hdprev, rfl⟩)))
          rw [← htr, dtr_append, dtr_dispatch]
          refine ⟨hout, ?_⟩
          rw [List.singleton_append, countTy_cons]
          simp [fevt, hcount]
      | cons x q' =>
        have hcol' : r.collector = x :: (q' ++ [fevt]) := by
          rw [hcol, hq0]
          rfl
        have hp : pn_collector_peek r = some x := by
          simp [pn_collector_peek, hrel, hcol']
        obtain ⟨hxF, hq'⟩ := countFq_cons_zero x q' (by rw [hq0] at hqz; exact hqz)
        rw [loop_dispatch_eq n prev r x hp hy] at h
        cases hl : pn_reactor_process_loop n x.etype (pn_reactor_dispatch_event r x).1 with
        | none => rw [hl] at h; simp at h
        | some y =>
          obtain ⟨b0, r0, tr0⟩ := y
          rw [hl] at h
          simp only [Option.map_some', Option.some.injEq, Prod.mk.injEq] at h
          obtain ⟨hb, hr, htr⟩ := h
          subst hb hr
          have hdcol : (pn_reactor_dispatch_event r x).1.collector = q' ++ [fevt] := by
            rw [dispatch_collector, hcol']
            rfl
          have hdrel : (pn_reactor_dispatch_event r x).1.released = false := by
            rw [dispatch_released]
            exact hrel
          obtain ⟨hout, hcount⟩ := ih x.etype _ _ _ _ 1 hl (dispatch_yield r x)
            (Or.inr (Or.inl ⟨hdrel, ⟨q', hdcol, hq'⟩, rfl⟩))
          rw [← htr, dtr_append, dtr_dispatch]
          refine ⟨hout, ?_⟩
          rw [List.singleton_append, countTy_cons]
          have hxne : x.etype ≠ EvType.REACTOR_FINAL := by
            intro hcontra
            rw [hcontra] at hxF
            simp at hxF
          simp [hxne, hcount]
    · -- REACTOR_FINAL already dispatched, queue empty
      subst hk
      have hp := peek_empty r hcol
      cases hm : pni_reactor_more r with
      | true =>
        have hg : ((prev != EvType.REACTOR_QUIESCED) &&
            (r.previous != EvType.REACTOR_FINAL)) = false := by
          rw [hprev]
          simp
        rw [loop_blocked_eq n prev r hp hm hg] at h
        simp only [Option.some.injEq, Prod.mk.injEq] at h
        obtain ⟨hb, hr, htr⟩ := h
        subst hb hr htr
        exact ⟨Or.inl ⟨rfl, hm, hprev⟩, rfl⟩
      | false =>
        cases hs : r.selectable with
        | some sid =>
          rw [loop_terminate_eq n prev r sid hp hm hs] at h
          have hy2 : ({ pn_reactor_update (pn_selectable_terminate r sid) sid with
              selectable := none } : Reactor).yield = false := by
            show (pn_reactor_update (pn_selectable_terminate r sid) sid).yield = false
            rw [upd_yield, term_yield]
            exact hy
          have hm2 : pni_reactor_more
              ({ pn_reactor_update (pn_selectable_terminate r sid) sid with
                selectable := none } : Reactor) = false := by
            have heq : pni_reactor_more
                ({ pn_reactor_update (pn_selectable_terminate r sid) sid with
                  selectable := none } : Reactor) = pni_reactor_more r := by
              refine more_congr _ _ ?_ ?_
              · show (pn_reactor_update (pn_selectable_terminate r sid) sid).timer = r.timer
                rw [upd_timer, term_timer]
              · show (pn_reactor_update (pn_selectable_terminate r sid) sid).selectables =
                  r.selectables
                rw [upd_selectables, term_selectables]
            rw [heq]
            exact hm
          rcases upd_term_collector r sid with h2 | h2
          · refine ih prev _ b r' tr 0 h hy2
              (Or.inr (Or.inr (Or.inr (Or.inr ⟨?_, hm2, rfl, rfl⟩))))
            show (pn_reactor_update (pn_selectable_terminate r sid) sid).collector = []
            rw [h2, hcol]
          · refine ih prev _ b r' tr 0 h hy2
              (Or.inr (Or.inr (Or.inr (Or.inl ⟨⟨sid, ?_⟩, hm2, rfl, rfl⟩))))
            show (pn_reactor_update (pn_selectable_terminate r sid) sid).collector = _
            rw [h2, hcol]
            rfl
        | none =>
          rw [loop_drained_eq n prev r hp hm hs] at h
          simp only [Option.some.injEq, Prod.mk.injEq] at h
          obtain ⟨hb, hr, htr⟩ := h
          subst hb hr htr
          exact ⟨Or.inr ⟨rfl, hm, hs⟩, rfl⟩
    · -- only the timer selectable's SELECTABLE_FINAL left
      subst hk
      cases hrel : r.released with
      | true =>
        have hp := peek_released_none r hrel
        rw [loop_drained_eq n prev r hp hmr hsel] at h
        simp only [Option.some.injEq, Prod.mk.injEq] at h
        obtain ⟨hb, hr, htr⟩ := h
        subst hb hr htr
        exact ⟨Or.inr ⟨rfl, hmr, hsel⟩, rfl⟩
      | false =>
        have hp : pn_collector_peek r = some ⟨EvType.SELECTABLE_FINAL, Ctx.selC sid⟩ := by
          simp [pn_collector_peek, hrel, hcol]
        rw [loop_dispatch_eq n prev r _ hp hy] at h
        cases hl : pn_reactor_process_loop n EvType.SELECTABLE_FINAL
            (pn_reactor_dispatch_event r ⟨EvType.SELECTABLE_FINAL, Ctx.selC sid⟩).1 with
        | none => rw [hl] at h; simp at h
        | some y =>
          obtain ⟨b0, r0, tr0⟩ := y
          rw [hl] at h
          simp only [Option.map_some', Option.some.injEq, Prod.mk.injEq] at h
          obtain ⟨hb, hr, htr⟩ := h
          subst hb hr
          have hdcol : (pn_reactor_dispatch_event r
              ⟨EvType.SELECTABLE_FINAL, Ctx.selC sid⟩).1.collector = [] := by
            rw [dispatch_collector, hcol]
            rfl
          have hdm : pni_reactor_more (pn_reactor_dispatch_event r
              ⟨EvType.SELECTABLE_FINAL, Ctx.selC sid⟩).1 = false := by
            cases hmd : pni_reactor_more (pn_reactor_dispatch_event r
                ⟨EvType.SELECTABLE_FINAL, Ctx.selC sid⟩).1 with
            | false => rfl
            | true =>
              rw [more_dispatch r _ hmd] at hmr
              cases hmr
          have hdsel : (pn_reactor_dispatch_event r
              ⟨EvType.SELECTABLE_FINAL, Ctx.selC sid⟩).1.selectable = none := by
            rw [dispatch_selectable]
            exact hsel
          obtain ⟨hout, hcount⟩ := ih EvType.SELECTABLE_FINAL _ _ _ _ 0 hl
            (dispatch_yield r _)
            (Or.inr (Or.inr (Or.inr (Or.inr ⟨hdcol, hdm, hdsel, rfl⟩))))
          rw [← htr, dtr_append, dtr_dispatch]
          refine ⟨hout, ?_⟩
          rw [List.singleton_append, countTy_cons]
          simp [hcount]
    · -- fully drained already
      subst hk
      have hp := peek_empty r hcol
      rw [loop_drained_eq n prev r hp hmr hsel] at h
      simp only [Option.some.injEq, Prod.mk.injEq] at h
      obtain ⟨hb, hr, htr⟩ := h
      subst hb hr htr
      exact ⟨Or.inr ⟨rfl, hmr, hsel⟩, rfl⟩


/-! ### Claim C7: stop() idempotence -/

/-- A process() call on a released collector with work pending and the
quiesce guard open never returns: the injected REACTOR_QUIESCED is silently
discarded by the released collector, so the loop spins for any fuel (this is
the behavior behind the second stop() after a yield-interrupted first one). -/
theorem loop_released_diverges : ∀ (fuel : Nat) (prev : EvType) (r : Reactor),
    r.released = true → pni_reactor_more r = true →
    (prev != EvType.REACTOR_QUIESCED) = true →
    (r.previous != EvType.REACTOR_FINAL) = true →
    pn_reactor_process_loop fuel prev r = none := by
  intro fuel
  induction fuel with
  | zero => intro prev r _ _ _ _; rfl
  | succ n ih =>
    intro prev r hrel hm hq hf
    have hp := peek_released_none r hrel
    have hg : ((prev != EvType.REACTOR_QUIESCED) &&
        (r.previous != EvType.REACTOR_FINAL)) = true := by
      rw [hq, hf]
      rfl
    rw [loop_inject_eq n prev r hp hm hg, put_of_released r qev hrel,
      ih prev r hrel hm hq hf]
    rfl

/-- A reactor with a pending task and a yield requested before stop(). -/
def c7bad : Reactor := { c5state with yield := true }

set_option maxRecDepth 10000

/-- C7 counterexample: with a yield pending, the first stop() returns before
dispatching anything — REACTOR_FINAL is dispatched zero times, not exactly
once — yet it still releases the collector, and a second stop() never
returns (none at any fuel; loop_released_diverges shows the loop spins):
two consecutive stop() calls are not observationally equivalent to one. -/
theorem c7_counterexample :
    (pn_reactor_stop 30 0 c7bad).map
      (fun p => (p.1, countTy EvType.REACTOR_FINAL (dtr p.2.2), p.2.1.released,
        p.2.1.collector)) = some (true, 0, true, []) ∧
    ((pn_reactor_stop 30 0 c7bad).bind (fun p => pn_reactor_stop 300 0 p.2.1)) = none := by
  constructor
  · decide
  · decide

/-- C7 (amended): provided no yield is pending and the collector is
unreleased with no REACTOR_FINAL already queued, stop() dispatches
REACTOR_FINAL exactly once and releases the collector, and a second stop()
with the same clock reading is a no-op: it returns with the state exactly
unchanged and dispatches nothing. -/
theorem c7_stop_idempotent (pf : Nat) (t : Int) (r : Reactor) (b1 : Bool) (r1 : Reactor)
    (tr1 : List Act) :
    r.yield = false → r.released = false → countFq r.collector = 0 →
    pn_reactor_stop pf t r = some (b1, r1, tr1) →
    (countTy EvType.REACTOR_FINAL (dtr tr1) = 1 ∧
     r1.released = true ∧ r1.collector = [] ∧
     ∃ b2, pn_reactor_stop pf t r1 = some (b2, r1, [])) := by
  intro hy hrel hcf h
  have hstop : pn_reactor_stop pf t r =
      (pn_reactor_process pf t (pn_collector_put r fevt)).map
        (fun x => (x.1, pn_collector_release x.2.1, x.2.2)) := rfl
  rw [hstop] at h
  cases hp0 : pn_reactor_process pf t (pn_collector_put r fevt) with
  | none => rw [hp0] at h; simp at h
  | some x =>
    obtain ⟨b0, r0, tr0⟩ := x
    rw [hp0] at h
    simp only [Option.map_some', Option.some.injEq, Prod.mk.injEq] at h
    obtain ⟨hb, hr1, htr⟩ := h
    subst hb hr1 htr
    unfold pn_reactor_process at hp0
    have hy' : (pn_reactor_mark t (pn_collector_put r fevt)).yield = false := by
      show (pn_collector_put r fevt).yield = false
      rw [put_yield]
      exact hy
    have hinvA : stopInv EvType.NONE (pn_reactor_mark t (pn_collector_put r fevt)) 1 := by
      refine Or.inr (Or.inl ⟨?_, ⟨r.collector, ?_, hcf⟩, rfl⟩)
      · show (pn_collector_put r fevt).released = false
        rw [put_released]
        exact hrel
      · show (pn_collector_put r fevt).collector = r.collector ++ [fevt]
        exact put_collector r fevt hrel
    obtain ⟨hout, hcount⟩ := loop_stopInv pf EvType.NONE _ b0 r0 tr0 1 hp0 hy' hinvA
    obtain ⟨hrel0, hnow0, htimer0, hyld0⟩ := loop_pres pf EvType.NONE _ b0 r0 tr0 hp0
    refine ⟨hcount, rfl, rfl, ?_⟩
    have hput2 : pn_collector_put (pn_collector_release r0) fevt = pn_collector_release r0 :=
      put_of_released _ _ rfl
    have hnow1 : (pn_collector_release r0).now = t := by
      show r0.now = t
      rw [hnow0]
      rfl
    have hmark2 : pn_reactor_mark t (pn_collector_release r0) = pn_collector_release r0 := by
      rw [← hnow1]
      exact mark_id _
    cases pf with
    | zero =>
      rw [loop_zero] at hp0
      exact absurd hp0 (by simp)
    | succ m =>
      have hp : pn_collector_peek (pn_collector_release r0) = none :=
        peek_released_none _ rfl
      rcases hout with ⟨hb0, hmore0, hprev0⟩ | ⟨hb0, hmore0, hsel0⟩
      · refine ⟨true, ?_⟩
        have hm : pni_reactor_more (pn_collector_release r0) = true := by
          have heq : pni_reactor_more (pn_collector_release r0) = pni_reactor_more r0 :=
            more_congr _ _ rfl rfl
          rw [heq]
          exact hmore0
        have hg : ((EvType.NONE != EvType.REACTOR_QUIESCED) &&
            ((pn_collector_release r0).previous != EvType.REACTOR_FINAL)) = false := by
          have heq : (pn_collector_release r0).previous = EvType.REACTOR_FINAL := hprev0
          rw [heq]
          rfl
        show (pn_reactor_process (m + 1) t
          (pn_collector_put (pn_collector_release r0) fevt)).map
            (fun x => (x.1, pn_collector_release x.2.1, x.2.2)) = _
        rw [hput2]
        unfold pn_reactor_process
        rw [hmark2, loop_blocked_eq m EvType.NONE _ hp hm hg]
        simp only [Option.map_some']
        rw [release_id _ rfl rfl]
      · refine ⟨false, ?_⟩
        have hm : pni_reactor_more (pn_collector_release r0) = false := by
          have heq : pni_reactor_more (pn_collector_release r0) = pni_reactor_more r0 :=
            more_congr _ _ rfl rfl
          rw [heq]
          exact hmore0
        have hsel : (pn_collector_release r0).selectable = none := hsel0
        show (pn_reactor_process (m + 1) t
          (pn_collector_put (pn_collector_release r0) fevt)).map
            (fun x => (x.1, pn_collector_release x.2.1, x.2.2)) = _
        rw [hput2]
        unfold pn_reactor_process
        rw [hmark2, loop_drained_eq m EvType.NONE _ hp hm hsel]
        simp only [Option.map_some']
        rw [release_id _ rfl rfl]

/-- The freshly started reactor the witness stops twice. -/
def c7s0 : Reactor := pn_reactor_start pn_reactor_new

/-- The state after the first stop() on c7s0. -/
def c7r1 : Reactor := ((pn_reactor_stop 10 0 c7s0).map (fun x => x.2.1)).getD pn_reactor_new

/-- The trace of the first stop() on c7s0. -/
def c7t1 : List Act := ((pn_reactor_stop 10 0 c7s0).map (fun x => x.2.2)).getD []

theorem c7_stop_idempotent_witness :
    countTy EvType.REACTOR_FINAL (dtr c7t1) = 1 ∧
    c7r1.released = true ∧ c7r1.collector = [] ∧
    ∃ b2, pn_reactor_stop 10 0 c7r1 = some (b2, c7r1, []) :=
  c7_stop_idempotent 10 0 c7s0 false c7r1 c7t1 (by decide) (by decide) (by decide) (by decide)

/-! ### Claim C6: the empty run -/

/-- C6 counterexample: the actual empty run start(); while work(1000) {};
stop() dispatches REACTOR_INIT, SELECTABLE_INIT, SELECTABLE_UPDATED (from
registering the timer selectable), SELECTABLE_FINAL, REACTOR_FINAL — no
REACTOR_QUIESCED at all, since more() is false with only the timer
selectable registered — and the process() calls return false (work) and
false (stop), not one true and one false. -/
theorem c6_counterexample :
    ((pn_reactor_run 10 20 0 pn_reactor_new).map (fun x => (dtr x.2.2, x.2.1))) =
      some ([EvType.REACTOR_INIT, EvType.SELECTABLE_INIT, EvType.SELECTABLE_UPDATED,
             EvType.SELECTABLE_FINAL, EvType.REACTOR_FINAL], [false, false]) ∧
    ¬([EvType.REACTOR_INIT, EvType.SELECTABLE_INIT, EvType.SELECTABLE_UPDATED,
       EvType.SELECTABLE_FINAL, EvType.REACTOR_FINAL] =
      [EvType.REACTOR_INIT, EvType.SELECTABLE_INIT, EvType.REACTOR_QUIESCED,
       EvType.SELECTABLE_FINAL, EvType.REACTOR_FINAL]) ∧
    countTy EvType.REACTOR_QUIESCED
      [EvType.REACTOR_INIT, EvType.SELECTABLE_INIT, EvType.SELECTABLE_UPDATED,
       EvType.SELECTABLE_FINAL, EvType.REACTOR_FINAL] = 0 ∧
    [false, false].count true = 0 := by
  refine ⟨by decide, by decide, by decide, by decide⟩

/-- C6 (amended): the empty run emits exactly REACTOR_INIT, SELECTABLE_INIT
(timer), SELECTABLE_UPDATED (timer), SELECTABLE_FINAL (timer),
REACTOR_FINAL, in that order, with no REACTOR_QUIESCED; the single work()
process returns false and the stop()-internal process returns false; the
collector ends released. -/
theorem c6_empty_run_amended :
    (pn_reactor_run 10 20 0 pn_reactor_new).map (fun x => (dtr x.2.2, x.2.1, x.1.released)) =
      some ([EvType.REACTOR_INIT, EvType.SELECTABLE_INIT, EvType.SELECTABLE_UPDATED,
             EvType.SELECTABLE_FINAL, EvType.REACTOR_FINAL], [false, false], true) := by
  decide

/-! ### Claim C8: stop() always releases -/

/-- C8: stop() releases the collector unconditionally after its single
process() call, whatever boolean that call returned; the released collector
is empty, so events still queued at that point are abandoned, and stop()'s
trace is exactly the process() call's trace, so the abandoned events are
never dispatched. -/
theorem c8_stop_releases_unconditionally (fuel : Nat) (t : Int) (r : Reactor) (b : Bool)
    (r' : Reactor) (tr : List Act) :
    pn_reactor_process fuel t (pn_collector_put r fevt) = some (b, r', tr) →
    (pn_reactor_stop fuel t r = some (b, pn_collector_release r', tr) ∧
     (pn_collector_release r').released = true ∧
     (pn_collector_release r').collector = []) := by
  intro h
  refine ⟨?_, rfl, rfl⟩
  show (pn_reactor_process fuel t (pn_collector_put r fevt)).map
      (fun x => (x.1, pn_collector_release x.2.1, x.2.2)) = _
  rw [h]
  rfl

/-- A started reactor with a scheduled task and a pending yield: its stop()
returns true with events still queued. -/
def c8s : Reactor :=
  { pn_reactor_schedule (pn_reactor_start pn_reactor_new) 1000 none with yield := true }

/-- The state left by the process() call inside stop() on c8s. -/
def c8r : Reactor :=
  ((pn_reactor_process 30 0 (pn_collector_put c8s fevt)).map (fun x => x.2.1)).getD
    pn_reactor_new

/-- The trace of the process() call inside stop() on c8s. -/
def c8t : List Act :=
  ((pn_reactor_process 30 0 (pn_collector_put c8s fevt)).map (fun x => x.2.2)).getD []

theorem c8_stop_releases_unconditionally_witness :
    (pn_reactor_stop 30 0 c8s = some (true, pn_collector_release c8r, c8t) ∧
     (pn_collector_release c8r).released = true ∧
     (pn_collector_release c8r).collector = []) ∧
    c8r.collector ≠ [] := by
  refine ⟨c8_stop_releases_unconditionally 30 0 c8s true c8r c8t (by decide), by decide⟩

end QpidReactor
